import Mathlib

/-!
# Verification of the repair-shop record/billing core

A shallow embedding of the record model, identifier generation, phone
lifecycle and billing engine of the repair-shop application
(src/unnamed/part_000), together with theorems settling the specification
claims about them.

Modelling conventions:
* JS numbers are embedded as exact rationals (`ℚ`); `x.toFixed(2)` followed
  by `parseFloat` of the rendered text is embedded as `round2` (round to two
  decimals, ties toward plus infinity, which is ECMAScript `toFixed`
  tie-breaking for the magnitudes used here).
* `parseFloat(v) || d` / `parseInt(v) || d` on a form field are embedded as
  `jsNumOr` / `jsIntOr` applied to an `Option` value, `none` standing for a
  non-numeric field (`NaN`); the JS fallback also fires on the falsy value 0.
* Records are Lean structures carrying the fields the core logic reads;
  presentational scalar fields (customer names, images, ...) that no claim
  and no control path depends on are omitted.
* DOM state read inside a function (hidden inputs, rendered totals) is
  passed as an explicit parameter, documented at each definition.
-/

namespace Malyan

/-- `x.toFixed(2)` rendered and parsed back (exact decimal semantics):
round to two decimal places, ties toward plus infinity. -/
def round2 (q : ℚ) : ℚ := (⌊q * 100 + 1 / 2⌋ : ℚ) / 100

/-- JS `parseFloat(v) || d`: `none` models `NaN`; the fallback also fires
when the parsed value is the falsy number 0. -/
def jsNumOr (v : Option ℚ) (d : ℚ) : ℚ :=
  match v with
  | none => d
  | some q => if q = 0 then d else q

/-- JS `parseInt(v) || d` on an integer-valued field. -/
def jsIntOr (v : Option ℤ) (d : ℤ) : ℤ :=
  match v with
  | none => d
  | some q => if q = 0 then d else q

/-- JS `v || d` on a possibly-missing string field: `undefined` (`none`)
and the empty string are falsy. -/
def jsStrOr (v : Option String) (d : String) : String :=
  match v with
  | none => d
  | some s => if s = "" then d else s

/-- Core of the decimal-numeral conversion, big-endian; structural on a fuel
bound (always called with `fuel ≥ n`) so that concrete values reduce. -/
def natCharsCore : ℕ → ℕ → List Char
  | _, 0 => []
  | 0, _ + 1 => []
  | fuel + 1, n + 1 =>
    natCharsCore fuel ((n + 1) / 10) ++ [Nat.digitChar ((n + 1) % 10)]

/-- The decimal numeral of a natural number, as a character list
(JS `String(n)` / `n.toString()`). -/
def natChars (n : ℕ) : List Char :=
  if n = 0 then ['0'] else natCharsCore n n

/-- JS `s.padStart(3, '0')` at the character-list level. -/
def padChars3 (l : List Char) : List Char :=
  if 3 ≤ l.length then l else List.replicate (3 - l.length) '0' ++ l

/-- JS `String(n).padStart(3, '0')`. -/
def pad3 (n : ℕ) : String := String.mk (padChars3 (natChars n))

/-- Numeric value of a digit character (inverse of `Nat.digitChar` below 10). -/
def charVal (c : Char) : ℕ := c.toNat - 48

/-- Value of a big-endian digit-character string; used to invert `natChars`
and `padChars3`. -/
def decodeDigits (l : List Char) : ℕ :=
  Nat.ofDigits 10 ((l.map charVal).reverse)

/-- JS `parseInt(s, 10)` on the nonnegative inputs arising here: the longest
leading run of decimal digits, `none` when there is none (`NaN`). -/
def parseIntNat (s : String) : Option ℕ :=
  let ds := s.data.takeWhile Char.isDigit
  if ds.isEmpty then none else some (decodeDigits ds)

/-! ## Data model (section 3 of the design; shapes from the JS object literals) -/

/-- A vendor intake phone (`phone` object literal, part_000 lines 488-499). -/
structure Phone where
  phone_id : String
  date_received : String
  brand : String
  model : String
  issue : String
  received_by : String
  status : String
  completed : Bool
  billed : Bool
  bill_id : Option String
deriving DecidableEq

/-- A bill line item (`item` object literal inside `saveVendorBill`,
part_000 lines 3304-3310). `total` is the value parsed back from the
item-total cell. -/
structure LineItem where
  item : String
  breakout : String
  price : ℚ
  quantity : ℤ
  total : ℚ
deriving DecidableEq

/-- A vendor bill (`newBill` object literal, part_000 lines 3362-3372;
`updated_at` is written only by the in-place edit path). -/
structure VendorBill where
  bill_id : String
  bill_number : String
  date : String
  phone_ids : List String
  items : List LineItem
  subtotal : ℚ
  tax : ℚ
  grand_total : ℚ
  saved_at : String
  updated_at : Option String := none
deriving DecidableEq

/-- A top-level record of the store. Vendor records carry `vendor_id`,
`phones` and `bills`; service records carry `service_id`; laptop records
carry `laptop_id`. Fields absent on a JS object are `none` / `[]`. -/
structure Rec where
  record_type : String
  service_id : Option String := none
  vendor_id : Option String := none
  laptop_id : Option String := none
  phones : List Phone := []
  bills : List VendorBill := []
deriving DecidableEq

/-! ## Identifier generator (part_000 lines 172-217) -/

/-- `generateServiceID(records)` (lines 172-178): looks at the LAST record of
the whole store (no family filter), takes `record.service_id || 'SRV000'`,
and returns `'SRV' + (parseInt(suffix) + 1).padStart(3,'0')`; `"SRVNaN"`
models the `NaN` propagation when the suffix does not parse. -/
def generateServiceID (records : List Rec) : String :=
  match records.getLast? with
  | none => "SRV001"
  | some r =>
    let lastID := jsStrOr r.service_id "SRV000"
    match parseIntNat (lastID.drop 3) with
    | some n => "SRV" ++ pad3 (n + 1)
    | none => "SRV" ++ "NaN"

/-- `generateVendorID(records)` (lines 181-188): filters the vendor family,
then uses the LAST vendor record's `vendor_id` suffix plus one. -/
def generateVendorID (records : List Rec) : String :=
  match (records.filter (fun r => r.record_type = "vendor")).getLast? with
  | none => "VND001"
  | some r =>
    let lastID := jsStrOr r.vendor_id "VND000"
    match parseIntNat (lastID.drop 3) with
    | some n => "VND" ++ pad3 (n + 1)
    | none => "VND" ++ "NaN"

/-- `generatePhoneID(vendorId, phoneNumber)` (lines 191-193). -/
def generatePhoneID (vendorId : String) (phoneNumber : ℕ) : String :=
  vendorId ++ "-P" ++ pad3 phoneNumber

/-- `generateBillID(vendorId, billNumber)` (lines 196-198). -/
def generateBillID (vendorId : String) (billNumber : ℕ) : String :=
  vendorId ++ "-B" ++ pad3 billNumber

/-- `generateLaptopID(records)` (lines 201-217): filters the laptop family
and takes the MAXIMUM parsed `laptop_id` suffix (unparseable ids skipped),
returning `'LAP' + (max + 1).padStart(3,'0')`. -/
def generateLaptopID (records : List Rec) : String :=
  let laptopRecords := records.filter (fun r => r.record_type = "laptop")
  if laptopRecords.isEmpty then "LAP001"
  else
    let maxNum := laptopRecords.foldl
      (fun m r =>
        match parseIntNat ((jsStrOr r.laptop_id "").drop 3) with
        | some n => if m < n then n else m
        | none => m) 0
    "LAP" ++ pad3 (maxNum + 1)

/-- Modelled from the spec: the identifier-generator contract of section 4.1
for the `SRV`/`LAP`/`VND` families — scan the records of the family, take
the maximum numeric suffix of their identifiers, and return
`prefix + zeroPad(max + 1, 3)`, or `prefix + "001"` when the family is
empty. Stated over the list of the family's identifiers. -/
def specNextId (pfx : String) (famIds : List String) : String :=
  if famIds.isEmpty then pfx ++ "001"
  else pfx ++ pad3 ((famIds.map (fun id => ((parseIntNat (id.drop 3)).getD 0))).foldr max 0 + 1)

/-- The parsed numeric suffix the laptop generator and the spec contract
extract from a family identifier (0 when it does not parse). -/
def suffixVal (id : String) : ℕ := (parseIntNat (id.drop 3)).getD 0

/-! ## Warranty window (part_000 lines 548-553) -/

/-- A calendar date (the `YYYY-MM-DD` strings of the source, structurally). -/
structure Date where
  year : ℤ
  month : ℕ
  day : ℕ
deriving DecidableEq

/-- Gregorian leap year, as implemented by the JS `Date` object. -/
def isLeapYear (y : ℤ) : Bool :=
  (y % 4 == 0 && y % 100 != 0) || y % 400 == 0

/-- Days in a month of the proleptic Gregorian calendar. -/
def daysInMonth (y : ℤ) (m : ℕ) : ℕ :=
  if m = 2 then (if isLeapYear y then 29 else 28)
  else if m = 4 ∨ m = 6 ∨ m = 9 ∨ m = 11 then 30 else 31

/-- JS `Date` normalization after `setMonth`: a day-of-month past the end of
the month rolls over into the following month. (One carry step suffices for
the in-range day numbers 1..31 arising from real dates, since the excess is
at most 31 - 28 = 3.) -/
def normalizeDate (y : ℤ) (m : ℕ) (d : ℕ) : Date :=
  if d ≤ daysInMonth y m then ⟨y, m, d⟩
  else if m = 12 then ⟨y + 1, 1, d - daysInMonth y m⟩
  else ⟨y, m + 1, d - daysInMonth y m⟩

/-- `calculateWarrantyEndDate(fromDate, warranty)` (lines 548-553):
`months = warranty === '6' || warranty === '6 months' ? 6 : 3`, then
`date.setMonth(date.getMonth() + months)` with JS day-overflow
normalization. -/
def calculateWarrantyEndDate (fromDate : Date) (warranty : String) : Date :=
  let months : ℕ := if warranty = "6" ∨ warranty = "6 months" then 6 else 3
  let idx := (fromDate.month - 1) + months
  normalizeDate (fromDate.year + idx / 12) (idx % 12 + 1) fromDate.day

/-- Modelled from the spec: `toDate = fromDate + k calendar months` — the
same day of the month, the month advanced by `k` with the year carrying. -/
def specAddCalendarMonths (d : Date) (k : ℕ) : Date :=
  let idx := (d.month - 1) + k
  ⟨d.year + idx / 12, idx % 12 + 1, d.day⟩

/-! ## Line items and bill totals (part_000 lines 1347-1372) -/

/-- The unrounded line-item total of `updateItemTotal` (lines 1347-1354):
`price = parseFloat(priceField) || 0`, `qty = parseInt(qtyField) || 1`,
`total = price * qty`. `none` models a non-numeric field. -/
def itemTotalRaw (priceInput : Option ℚ) (qtyInput : Option ℤ) : ℚ :=
  jsNumOr priceInput 0 * (jsIntOr qtyInput 1 : ℚ)

/-- `updateItemTotal` as observed downstream: the value written to the
item-total cell as `total.toFixed(2)` and parsed back by every reader. -/
def updateItemTotal (priceInput : Option ℚ) (qtyInput : Option ℤ) : ℚ :=
  round2 (itemTotalRaw priceInput qtyInput)

/-- Modelled from the spec: `computeLineItem(price, qty) = price * qty` with
a negative price clamped to the floor 0 and a zero-or-negative quantity
clamped to the floor 1. -/
def specLineItemTotal (price : ℚ) (qty : ℤ) : ℚ :=
  max price 0 * (max qty 1 : ℤ)

/-- The totals computed by `updateBillTotals` (lines 1356-1372), before the
final `toFixed(2)` rendering. -/
structure BillTotals where
  subtotal : ℚ
  taxAmount : ℚ
  grandTotal : ℚ
deriving DecidableEq

/-- `updateBillTotals` (lines 1356-1372): `itemCells` are the values parsed
back from the item-total cells (each one a `toFixed(2)` rendering, hence a
two-decimal value), `taxInput` is the parse of the tax-percent field. -/
def updateBillTotals (itemCells : List ℚ) (taxInput : Option ℚ) : BillTotals :=
  let subtotal := itemCells.sum
  let taxAmount := subtotal * jsNumOr taxInput 0 / 100
  ⟨subtotal, taxAmount, subtotal + taxAmount⟩

/-! ## UI guards around the vendor-phone controls

The per-phone controls of the vendor modal are the only call sites of
`updatePhoneStatus` and the only source of billing selections, so their
rendering conditions are the effective preconditions of those operations. -/

/-- Status options offered by the per-phone dropdown (lines 2288-2290). -/
def phoneStatusOptions : List String := ["Received", "In Repair", "Ready"]

/-- The status dropdown is rendered only for a phone whose status is not
`Billed` (lines 2285-2291); a `Billed` phone shows a static badge instead. -/
def statusSelectShown (p : Phone) : Bool := p.status ≠ "Billed"

/-- The phone's selection checkbox is disabled iff its status is `Billed`
(line 2276). -/
def checkboxDisabled (p : Phone) : Bool := p.status = "Billed"

/-- The phone's selection checkbox is initially checked iff
`phone.completed && !phone.billed` (line 2276). A disabled checkbox keeps
its rendered checked state, so a phone can end up selected only if its
checkbox is enabled or was rendered checked. -/
def checkboxPrechecked (p : Phone) : Bool := p.completed && !p.billed

/-- A phone the vendor-modal UI can possibly submit for billing. -/
def selectablePhone (p : Phone) : Bool := !checkboxDisabled p || checkboxPrechecked p

/-! ## Store operations -/

/-- The `createVendorForm` submit handler (lines 437-467): appends a fresh
vendor record with `phones: []`, `bills: []` and the generated vendor id. -/
def createVendorSubmit (records : List Rec) : List Rec :=
  records ++ [{ record_type := "vendor", vendor_id := some (generateVendorID records) }]

/-- Form data of the `addPhoneForm` submit handler. -/
structure PhoneForm where
  date_received : String
  brand : String
  model : String
  issue : String
  received_by : String
deriving DecidableEq

/-- The `addPhoneForm` submit handler (lines 470-518): finds the selected
vendor (first record with the vendor id; `none` when absent — the handler
alerts and performs no mutation), appends a phone with
`status: 'Received', completed: false, billed: false, bill_id: null` and
`phone_id = generatePhoneID(vendorId, vendor.phones.length + 1)`. -/
def addPhoneSubmit (records : List Rec) (vendorId : String) (form : PhoneForm) :
    Option (List Rec) :=
  match records.findIdx? (fun r => r.vendor_id = some vendorId) with
  | none => none
  | some vendorIndex =>
    match records[vendorIndex]? with
    | none => none
    | some vendor =>
      let phoneId := generatePhoneID vendorId (vendor.phones.length + 1)
      let phone : Phone :=
        ⟨phoneId, form.date_received, form.brand, form.model, form.issue,
          form.received_by, "Received", false, false, none⟩
      some (records.set vendorIndex { vendor with phones := vendor.phones ++ [phone] })

/-- The per-phone mutation of `updatePhoneStatus`: set the status; the
derived `completed` flag becomes true exactly for `Ready` (lines 2441-2446). -/
def setPhoneStatus (p : Phone) (newStatus : String) : Phone :=
  { p with status := newStatus, completed := newStatus = "Ready" }

/-- Apply `setPhoneStatus` to the first phone with the given id
(`record.phones.find(...)` mutates that one phone in place). -/
def updateFirst (ps : List Phone) (phoneId newStatus : String) : List Phone :=
  match ps with
  | [] => []
  | p :: rest =>
    if p.phone_id = phoneId then setPhoneStatus p newStatus :: rest
    else p :: updateFirst rest phoneId newStatus

/-- `updatePhoneStatus(phoneId, newStatus)` (lines 2433-2452): walks the
records, and in the first vendor record containing a phone with the id,
updates that phone (then saves and breaks). -/
def updatePhoneStatus (records : List Rec) (phoneId newStatus : String) : List Rec :=
  match records with
  | [] => []
  | r :: rest =>
    if r.record_type = "vendor" && r.phones.any (fun p => p.phone_id = phoneId) then
      { r with phones := updateFirst r.phones phoneId newStatus } :: rest
    else r :: updatePhoneStatus rest phoneId newStatus

/-- Outcome of `saveVendorBill`, distinguishing its four exit paths. -/
inductive SaveOutcome where
  | vendorNotFound
  | noPhones
  | edited (billId : String)
  | created (billId : String)
deriving DecidableEq

/-- Result of `saveVendorBill`: the record store after the call and the
number of `saveRecords` calls (record-store replaces) it performed. -/
structure SaveResult where
  records : List Rec
  saves : ℕ
  outcome : SaveOutcome
deriving DecidableEq

/-- `saveVendorBill(vendorId, isPartial)` (part_000 lines 3275-3398), with
the DOM state it reads passed explicitly:
* `selectedInput` — the hidden `selectedPhoneIds` input (`none` when absent
  or empty, in which case all unbilled phones of the vendor are selected);
* `items` — the line items collected from the form rows (each `total` the
  parsed item-total cell);
* `subtotal`, `tax`, `grandTotal` — `parseFloat` of the rendered totals
  (two-decimal renderings of the `updateBillTotals` values);
* `editingBillId` — `window.selectedPhonesForBilling.editingBillId`;
* `todayDate`, `nowTs` — the current date string and ISO timestamp.
Control flow: vendor lookup, selection resolution, empty-selection bailout,
in-place edit when the editing bill id exists, otherwise (including when an
editing id is set but NOT found — the fall-through) creation of a new bill
that marks every selected phone `billed`, `bill_id`, `status = 'Billed'`,
followed by a single `saveRecords`. -/
def saveVendorBill (records : List Rec) (vendorId : String)
    (selectedInput : Option (List String)) (items : List LineItem)
    (subtotal tax grandTotal : ℚ) (editingBillId : Option String)
    (todayDate nowTs : String) : SaveResult :=
  match records.findIdx? (fun r => r.vendor_id = some vendorId) with
  | none => ⟨records, 0, .vendorNotFound⟩
  | some vendorIndex =>
    match records[vendorIndex]? with
    | none => ⟨records, 0, .vendorNotFound⟩
    | some vendor =>
      let selectedPhoneIds :=
        match selectedInput with
        | some l => l
        | none => (vendor.phones.filter (fun (p : Phone) => !p.billed)).map Phone.phone_id
      if selectedPhoneIds.isEmpty then ⟨records, 0, .noPhones⟩
      else
        let editAttempt : Option SaveResult :=
          match editingBillId with
          | none => none
          | some billId =>
            match vendor.bills.findIdx? (fun (b : VendorBill) => b.bill_id = billId) with
            | none => none
            | some billIndex =>
              match vendor.bills[billIndex]? with
              | none => none
              | some bill =>
                let bills' := vendor.bills.set billIndex
                  { bill with
                    items := items
                    subtotal := subtotal
                    tax := tax
                    grand_total := grandTotal
                    updated_at := some nowTs }
                some ⟨records.set vendorIndex { vendor with bills := bills' }, 1,
                  .edited billId⟩
        match editAttempt with
        | some r => r
        | none =>
          let billId := generateBillID vendorId (vendor.bills.length + 1)
          let newBill : VendorBill :=
            ⟨billId, billId, todayDate, selectedPhoneIds, items, subtotal, tax,
              grandTotal, nowTs, none⟩
          let phones' := vendor.phones.map (fun (p : Phone) =>
            if selectedPhoneIds.contains p.phone_id then
              { p with billed := true, bill_id := some billId, status := "Billed" }
            else p)
          ⟨records.set vendorIndex
            { vendor with bills := vendor.bills ++ [newBill], phones := phones' },
            1, .created billId⟩

/-! ## System steps

The operations that touch vendor phones and bills, as the UI wires them.
The hypotheses of each step are the rendering conditions of the control
that triggers it (documented at `statusSelectShown`, `selectablePhone`):
* a status change comes from a dropdown that exists only for a non-`Billed`
  phone and offers only `phoneStatusOptions` (lines 2285-2291);
* a billing selection contains only phones whose checkbox was enabled
  (status not `Billed`) or pre-checked (`completed && !billed`): line 2276,
  via `createBillForCheckedPhones` (lines 2482-2512), or the all-unbilled
  fallback of `displayVendorBillingForm` (lines 3176-3186);
* an in-place edit comes from `editVendorBill` (lines 3400-3465), which
  verified that the bill exists and passed its `phone_ids` as selection. -/

/-- Labels identifying which operation a step performs. -/
inductive Op where
  | newVendor
  | newPhone (vendorId : String) (form : PhoneForm)
  | setStatus (phoneId newStatus : String)
  | billCreate (vendorId : String) (selected : List String) (items : List LineItem)
      (subtotal tax grandTotal : ℚ) (todayDate nowTs : String)
  | billEdit (vendorId billId : String) (selected : List String) (items : List LineItem)
      (subtotal tax grandTotal : ℚ) (todayDate nowTs : String)

/-- One UI-triggered mutation of the record store. -/
inductive Step : Op → List Rec → List Rec → Prop
  | newVendor (records : List Rec) :
      Step .newVendor records (createVendorSubmit records)
  | newPhone (records records' : List Rec) (vendorId : String) (form : PhoneForm)
      (h : addPhoneSubmit records vendorId form = some records') :
      Step (.newPhone vendorId form) records records'
  | setStatus (records : List Rec) (phoneId newStatus : String)
      (hopt : newStatus ∈ phoneStatusOptions)
      (hshown : ∀ r ∈ records, r.record_type = "vendor" →
        ∀ p ∈ r.phones, p.phone_id = phoneId → statusSelectShown p = true) :
      Step (.setStatus phoneId newStatus) records
        (updatePhoneStatus records phoneId newStatus)
  | billCreate (records : List Rec) (vendorId : String) (selected : List String)
      (items : List LineItem) (subtotal tax grandTotal : ℚ) (todayDate nowTs : String)
      (vendorIndex : ℕ) (vendor : Rec)
      (hfind : records.findIdx? (fun r => r.vendor_id = some vendorId) = some vendorIndex)
      (hget : records[vendorIndex]? = some vendor)
      (hsel : ∀ pid ∈ selected, ∃ p ∈ vendor.phones,
        p.phone_id = pid ∧ selectablePhone p = true) :
      Step (.billCreate vendorId selected items subtotal tax grandTotal todayDate nowTs)
        records
        (saveVendorBill records vendorId (some selected) items subtotal tax grandTotal
          none todayDate nowTs).records
  | billEdit (records : List Rec) (vendorId billId : String) (selected : List String)
      (items : List LineItem) (subtotal tax grandTotal : ℚ) (todayDate nowTs : String)
      (vendorIndex : ℕ) (vendor : Rec)
      (hfind : records.findIdx? (fun r => r.vendor_id = some vendorId) = some vendorIndex)
      (hget : records[vendorIndex]? = some vendor)
      (hbill : ∃ b ∈ vendor.bills, b.bill_id = billId) :
      Step (.billEdit vendorId billId selected items subtotal tax grandTotal todayDate nowTs)
        records
        (saveVendorBill records vendorId (some selected) items subtotal tax grandTotal
          (some billId) todayDate nowTs).records

/-- Stores reachable from the empty initial snapshot (the store starts empty
when nothing was persisted) by UI-triggered mutations. -/
inductive Reachable : List Rec → Prop
  | init : Reachable []
  | step {records records' : List Rec} {op : Op} :
      Reachable records → Step op records records' → Reachable records'

/-! ## The billing invariant (claim C1) -/

/-- The phone-id sets of the bills, in order. -/
def billsPids (bills : List VendorBill) : List (List String) :=
  bills.map VendorBill.phone_ids

/-- Number of bills of the list whose phone-id set contains `pid`. -/
def billCount (bills : List VendorBill) (pid : String) : ℕ :=
  (billsPids bills).countP (fun pids => pids.contains pid)

/-- The per-record billing invariant:
1. phone ids are positional: the `i`-th phone is `{vendorId}-P{i+1}`;
2. `billed` tracks `status = "Billed"`;
3. every id in a bill names a phone of the record;
4. `billed = true` iff the phone appears in exactly one bill;
5. the bills' phone-id sets are pairwise disjoint. -/
def RecInv (r : Rec) : Prop :=
  (∀ i (h : i < r.phones.length),
    (r.phones.get ⟨i, h⟩).phone_id = generatePhoneID (r.vendor_id.getD "") (i + 1)) ∧
  (∀ p ∈ r.phones, (p.billed = true ↔ p.status = "Billed")) ∧
  (∀ pids ∈ billsPids r.bills, ∀ pid ∈ pids, ∃ p ∈ r.phones, p.phone_id = pid) ∧
  (∀ p ∈ r.phones, (p.billed = true ↔ billCount r.bills p.phone_id = 1)) ∧
  (billsPids r.bills).Pairwise (fun l1 l2 => ∀ pid ∈ l1, pid ∉ l2)

/-- The store-wide invariant. -/
def Inv (records : List Rec) : Prop := ∀ r ∈ records, RecInv r

/-! ## Support lemmas: decimal numerals -/

theorem charVal_digitChar : ∀ d < 10, charVal (Nat.digitChar d) = d := by decide

theorem ofDigits_replicate_zero (k : ℕ) : Nat.ofDigits 10 (List.replicate k 0) = 0 := by
  induction k with
  | zero => rfl
  | succ k ih => simp [List.replicate_succ, Nat.ofDigits, ih]

theorem decodeDigits_append_zeros (k : ℕ) (l : List Char) :
    decodeDigits (List.replicate k '0' ++ l) = decodeDigits l := by
  unfold decodeDigits
  rw [List.map_append, List.reverse_append]
  have hmap : (List.replicate k '0').map charVal = List.replicate k 0 := by
    simp [List.map_replicate, charVal]
  rw [hmap, List.reverse_replicate, Nat.ofDigits_append, ofDigits_replicate_zero]
  simp

theorem decodeDigits_append_singleton (l : List Char) (c : Char) :
    decodeDigits (l ++ [c]) = charVal c + 10 * decodeDigits l := by
  unfold decodeDigits
  rw [List.map_append, List.reverse_append]
  simp [Nat.ofDigits_cons]

theorem decodeDigits_natCharsCore :
    ∀ fuel n, n ≤ fuel → decodeDigits (natCharsCore fuel n) = n := by
  intro fuel
  induction fuel with
  | zero =>
    intro n hn
    interval_cases n
    rfl
  | succ fuel ih =>
    intro n hn
    match n with
    | 0 => rfl
    | n + 1 =>
      show decodeDigits
        (natCharsCore fuel ((n + 1) / 10) ++ [Nat.digitChar ((n + 1) % 10)]) = n + 1
      rw [decodeDigits_append_singleton,
        charVal_digitChar _ (Nat.mod_lt _ (by norm_num)),
        ih _ (by
          have := Nat.div_lt_self (Nat.succ_pos n) (by norm_num : 1 < 10)
          omega)]
      omega

theorem decodeDigits_natChars (n : ℕ) : decodeDigits (natChars n) = n := by
  unfold natChars
  by_cases h : n = 0
  · subst h; decide
  · simp only [h, if_false]
    exact decodeDigits_natCharsCore n n le_rfl

theorem decodeDigits_padChars3 (l : List Char) :
    decodeDigits (padChars3 l) = decodeDigits l := by
  unfold padChars3
  split
  · rfl
  · exact decodeDigits_append_zeros _ _

theorem pad3_inj : Function.Injective pad3 := by
  intro a b h
  have hd : padChars3 (natChars a) = padChars3 (natChars b) := congrArg String.data h
  have hdec := congrArg decodeDigits hd
  rw [decodeDigits_padChars3, decodeDigits_padChars3,
    decodeDigits_natChars, decodeDigits_natChars] at hdec
  exact hdec

theorem string_append_right_inj {s t u : String} (h : s ++ t = s ++ u) : t = u := by
  have hd := congrArg String.data h
  rw [String.data_append, String.data_append] at hd
  have := List.append_cancel_left hd
  cases t
  cases u
  exact congrArg String.mk this

theorem generatePhoneID_inj (vid : String) {a b : ℕ}
    (h : generatePhoneID vid a = generatePhoneID vid b) : a = b := by
  unfold generatePhoneID at h
  exact pad3_inj (string_append_right_inj h)

/-! ## Support lemmas: two-decimal rounding -/

theorem round2_fix_exists {q : ℚ} (h : round2 q = q) : ∃ n : ℤ, q = (n : ℚ) / 100 :=
  ⟨⌊q * 100 + 1 / 2⌋, h.symm⟩

theorem round2_add_fix {c t : ℚ} (h : round2 c = c) :
    round2 (c + t) = c + round2 t := by
  obtain ⟨n, rfl⟩ := round2_fix_exists h
  unfold round2
  have h1 : ((n : ℚ) / 100 + t) * 100 + 1 / 2 = (n : ℚ) + (t * 100 + 1 / 2) := by ring
  rw [h1, Int.floor_int_add]
  push_cast
  ring

theorem round2_zero : round2 0 = 0 := by
  unfold round2
  norm_num

theorem round2_sum_fix {l : List ℚ} (h : ∀ c ∈ l, round2 c = c) :
    round2 l.sum = l.sum := by
  induction l with
  | nil => simpa using round2_zero
  | cons a l ih =>
    have ha := h a (List.mem_cons_self a l)
    have hl := ih (fun c hc => h c (List.mem_cons_of_mem _ hc))
    rw [List.sum_cons, round2_add_fix ha, hl]

/-! ## Claim C7: warranty window -/

/-- C7 (counterexample): the claim says the warranty computation returns the
input date plus exactly 3 calendar months for every date; at 2025-11-30 the
code returns 2026-03-02 (JS `setMonth` day-overflow rollover), which is not
the input day in the month advanced by three (2026-02-30 structurally, or
any reading keeping the target month February). -/
theorem c7_counterexample :
    calculateWarrantyEndDate ⟨2025, 11, 30⟩ "3" = ⟨2026, 3, 2⟩ ∧
    specAddCalendarMonths ⟨2025, 11, 30⟩ 3 = ⟨2026, 2, 30⟩ ∧
    calculateWarrantyEndDate ⟨2025, 11, 30⟩ "3" ≠ specAddCalendarMonths ⟨2025, 11, 30⟩ 3 ∧
    (calculateWarrantyEndDate ⟨2025, 11, 30⟩ "3").month ≠ 2 := by
  refine ⟨by decide, by decide, by decide, by decide⟩

/-- C7 (amended): with period string `"6"` or `"6 months"` the window is 6
months, any other period defaults to 3; the result is the input date plus
exactly that many calendar months (year boundaries crossing correctly)
whenever the day of month exists in the target month; otherwise the date
rolls over into the following month by the excess days (JS `Date`
normalization). -/
theorem c7_amended (d : Date) (w : String) (k : ℕ) (t : Date)
    (hk : k = if w = "6" ∨ w = "6 months" then 6 else 3)
    (ht : t = specAddCalendarMonths d k) :
    (d.day ≤ daysInMonth t.year t.month → calculateWarrantyEndDate d w = t) ∧
    (daysInMonth t.year t.month < d.day →
      calculateWarrantyEndDate d w =
        if t.month = 12 then ⟨t.year + 1, 1, d.day - daysInMonth t.year t.month⟩
        else ⟨t.year, t.month + 1, d.day - daysInMonth t.year t.month⟩) := by
  subst hk
  subst ht
  unfold calculateWarrantyEndDate specAddCalendarMonths normalizeDate
  constructor
  · intro h
    simp only [h, if_pos]
  · intro h
    simp only [if_neg (not_le.mpr h)]

/-- C7 (witness): the spec's own year-crossing example, and a 6-month one. -/
theorem c7_amended_witness :
    calculateWarrantyEndDate ⟨2025, 11, 15⟩ "3" = ⟨2026, 2, 15⟩ ∧
    calculateWarrantyEndDate ⟨2025, 8, 20⟩ "6" = ⟨2026, 2, 20⟩ := by
  constructor
  · exact (c7_amended ⟨2025, 11, 15⟩ "3" 3 ⟨2026, 2, 15⟩ (by decide) (by decide)).1 (by decide)
  · exact (c7_amended ⟨2025, 8, 20⟩ "6" 6 ⟨2026, 2, 20⟩ (by decide) (by decide)).1 (by decide)

/-! ## Claim C9: line-item totals -/

/-- C9 (counterexample): the claim says a negative price is clamped to the
floor 0; the code's `parseFloat(v) || 0` lets every nonzero numeric value
through, so price −5 with quantity 2 yields the stored total −10, not the
clamped 0 — the stored line-item total IS computed from a negative price. -/
theorem c9_counterexample :
    itemTotalRaw (some (-5)) (some 2) = -10 ∧
    updateItemTotal (some (-5)) (some 2) = -10 ∧
    specLineItemTotal (-5) 2 = 0 ∧
    itemTotalRaw (some (-5)) (some 2) ≠ specLineItemTotal (-5) 2 := by
  refine ⟨?_, ?_, ?_, ?_⟩ <;>
    norm_num [itemTotalRaw, updateItemTotal, specLineItemTotal, jsNumOr, jsIntOr, round2]

/-- C9 (amended): the `|| fallback` parse replaces only a non-numeric price
(with 0) and a non-numeric or zero quantity (with 1); numeric values,
including negative ones, pass through unclamped. On the claimed domain —
price at least 0 and quantity at least 1 — the computed total is exactly
`price * qty` and agrees with the clamped specification. -/
theorem c9_amended (p : ℚ) (q : ℤ) (hp : 0 ≤ p) (hq : 1 ≤ q) :
    itemTotalRaw (some p) (some q) = p * q ∧
    specLineItemTotal p q = p * q ∧
    updateItemTotal (some p) (some q) = round2 (p * q) ∧
    itemTotalRaw none (some q) = 0 ∧
    itemTotalRaw (some p) none = p ∧
    itemTotalRaw (some p) (some 0) = p := by
  have hq0 : q ≠ 0 := by omega
  have hraw : itemTotalRaw (some p) (some q) = p * q := by
    unfold itemTotalRaw jsNumOr jsIntOr
    by_cases hp0 : p = 0 <;> simp [hp0, hq0]
  refine ⟨hraw, ?_, ?_, ?_, ?_, ?_⟩
  · unfold specLineItemTotal
    rw [max_eq_left hp, max_eq_left (by exact_mod_cast hq : (1 : ℤ) ≤ q)]
  · unfold updateItemTotal
    rw [hraw]
  · unfold itemTotalRaw jsNumOr jsIntOr
    simp
  · unfold itemTotalRaw jsNumOr jsIntOr
    by_cases hp0 : p = 0 <;> simp [hp0]
  · unfold itemTotalRaw jsNumOr jsIntOr
    by_cases hp0 : p = 0 <;> simp [hp0]

/-- C9 (witness): the amended statement at price 3, quantity 2. -/
theorem c9_amended_witness :
    itemTotalRaw (some 3) (some 2) = 6 ∧ specLineItemTotal 3 2 = 6 := by
  have h := c9_amended 3 2 (by norm_num) (by norm_num)
  exact ⟨h.1.trans (by norm_num), h.2.1.trans (by norm_num)⟩

/-! ## Claim C10: phone initialization -/

/-- C10 (confirmed): the add-phone handler appends to the selected vendor a
phone initialized with `status = "Received"`, `completed = false`,
`billed = false`, `bill_id = null`, and id
`{vendorId}-P{zeroPad(phones.length + 1, 3)}`; no other record changes. -/
theorem c10_theorem (records : List Rec) (vendorId : String) (form : PhoneForm)
    (i : ℕ) (vendor : Rec)
    (hfind : records.findIdx? (fun r => r.vendor_id = some vendorId) = some i)
    (hget : records[i]? = some vendor) :
    addPhoneSubmit records vendorId form =
      some (records.set i { vendor with
        phones := vendor.phones ++
          [⟨generatePhoneID vendorId (vendor.phones.length + 1), form.date_received,
            form.brand, form.model, form.issue, form.received_by,
            "Received", false, false, none⟩] }) ∧
    generatePhoneID vendorId (vendor.phones.length + 1) =
      vendorId ++ "-P" ++ pad3 (vendor.phones.length + 1) := by
  constructor
  · simp only [addPhoneSubmit, hfind, hget]
  · rfl

/-- C10 (witness): a concrete vendor with one existing phone receives
`VND001-P002` with the documented initial field values. -/
theorem c10_witness :
    addPhoneSubmit
      [{ record_type := "vendor"
         vendor_id := some "VND001"
         phones := [⟨"VND001-P001", "d", "b", "m", "i", "r", "Ready", true, false, none⟩] }]
      "VND001" ⟨"d2", "b2", "m2", "i2", "r2"⟩ =
      some [{ record_type := "vendor"
              vendor_id := some "VND001"
              phones := [⟨"VND001-P001", "d", "b", "m", "i", "r", "Ready", true, false, none⟩,
                ⟨"VND001-P002", "d2", "b2", "m2", "i2", "r2", "Received", false, false, none⟩] }] := by
  have h := c10_theorem
    [{ record_type := "vendor"
       vendor_id := some "VND001"
       phones := [⟨"VND001-P001", "d", "b", "m", "i", "r", "Ready", true, false, none⟩] }]
    "VND001" ⟨"d2", "b2", "m2", "i2", "r2"⟩ 0
    { record_type := "vendor"
      vendor_id := some "VND001"
      phones := [⟨"VND001-P001", "d", "b", "m", "i", "r", "Ready", true, false, none⟩] }
    (by decide) (by decide)
  rw [h.1]
  decide

/-! ## Claim C3: successful vendor-bill creation -/

/-- C3 (confirmed): for a non-empty selection of the vendor's unbilled
phones, creation allocates the next vendor-scoped bill id
(`{vendorId}-B{zeroPad(bills.length + 1)}`), appends exactly one bill whose
phone-id list is exactly the selection, updates each selected phone to
`status = "Billed"`, `billed = true`, `bill_id = billId` (all other fields
kept), leaves every unselected phone and every other record unchanged, and
performs a single record-store replace. -/
theorem c3_theorem (records : List Rec) (vendorId : String) (selected : List String)
    (items : List LineItem) (subtotal tax grandTotal : ℚ) (todayDate nowTs : String)
    (i : ℕ) (vendor : Rec)
    (hfind : records.findIdx? (fun r => r.vendor_id = some vendorId) = some i)
    (hget : records[i]? = some vendor)
    (hne : selected ≠ [])
    (hunbilled : ∀ pid ∈ selected, ∃ p ∈ vendor.phones, p.phone_id = pid ∧ p.billed = false) :
    (saveVendorBill records vendorId (some selected) items subtotal tax grandTotal
        none todayDate nowTs).saves = 1 ∧
    (saveVendorBill records vendorId (some selected) items subtotal tax grandTotal
        none todayDate nowTs).outcome =
      .created (generateBillID vendorId (vendor.bills.length + 1)) ∧
    (∀ j : ℕ, j ≠ i →
      (saveVendorBill records vendorId (some selected) items subtotal tax grandTotal
        none todayDate nowTs).records[j]? = records[j]?) ∧
    ∃ vendor',
      (saveVendorBill records vendorId (some selected) items subtotal tax grandTotal
        none todayDate nowTs).records[i]? = some vendor' ∧
      vendor'.record_type = vendor.record_type ∧
      vendor'.vendor_id = vendor.vendor_id ∧
      vendor'.bills.length = vendor.bills.length + 1 ∧
      (∀ k : ℕ, k < vendor.bills.length → vendor'.bills[k]? = vendor.bills[k]?) ∧
      vendor'.bills[vendor.bills.length]? = some
        ⟨generateBillID vendorId (vendor.bills.length + 1),
          generateBillID vendorId (vendor.bills.length + 1), todayDate, selected,
          items, subtotal, tax, grandTotal, nowTs, none⟩ ∧
      vendor'.phones.length = vendor.phones.length ∧
      (∀ k : ℕ, ∀ p : Phone, vendor.phones[k]? = some p →
        (p.phone_id ∈ selected → vendor'.phones[k]? = some
          { p with
            billed := true
            bill_id := some (generateBillID vendorId (vendor.bills.length + 1))
            status := "Billed" }) ∧
        (p.phone_id ∉ selected → vendor'.phones[k]? = some p)) := by
  have hlen : i < records.length := by
    by_contra hle
    rw [List.getElem?_eq_none (Nat.le_of_not_lt hle)] at hget
    exact Option.noConfusion hget
  obtain ⟨a, rest, rfl⟩ : ∃ a rest, selected = a :: rest := by
    cases selected with
    | nil => exact absurd rfl hne
    | cons a rest => exact ⟨a, rest, rfl⟩
  simp only [saveVendorBill, hfind, hget, List.isEmpty_cons, Bool.false_eq_true,
    if_false]
  refine ⟨trivial, trivial, ?_, ?_⟩
  · intro j hj
    exact List.getElem?_set_ne (fun h => hj h.symm)
  · refine ⟨_, List.getElem?_set_self hlen, rfl, rfl, ?_, ?_, ?_, ?_, ?_⟩
    · dsimp only
      simp
    · intro k hk
      exact List.getElem?_append_left hk
    · rw [List.getElem?_append_right (le_refl _)]
      simp
    · dsimp only
      simp
    · intro k p hp
      constructor
      · intro hmem
        rw [List.getElem?_map, hp, Option.map_some']
        rw [if_pos (by simpa using List.elem_iff.mpr hmem)]
      · intro hmem
        rw [List.getElem?_map, hp, Option.map_some']
        rw [if_neg (by simpa using fun h => hmem (List.elem_iff.mp h))]

/-- C3 (witness): the spec scenario — vendor `VND001` with three `Received`
phones, billing the first two yields bill `VND001-B001`. -/
theorem c3_witness :
    (saveVendorBill
      [{ record_type := "vendor"
         vendor_id := some "VND001"
         phones := [⟨"VND001-P001", "d", "b", "m", "i", "r", "Received", false, false, none⟩,
           ⟨"VND001-P002", "d", "b", "m", "i", "r", "Received", false, false, none⟩,
           ⟨"VND001-P003", "d", "b", "m", "i", "r", "Received", false, false, none⟩] }]
      "VND001" (some ["VND001-P001", "VND001-P002"]) [] 0 0 0 none
      "2026-02-01" "ts").outcome = .created "VND001-B001" := by
  have h := c3_theorem
    [{ record_type := "vendor"
       vendor_id := some "VND001"
       phones := [⟨"VND001-P001", "d", "b", "m", "i", "r", "Received", false, false, none⟩,
         ⟨"VND001-P002", "d", "b", "m", "i", "r", "Received", false, false, none⟩,
         ⟨"VND001-P003", "d", "b", "m", "i", "r", "Received", false, false, none⟩] }]
    "VND001" ["VND001-P001", "VND001-P002"] [] 0 0 0 "2026-02-01" "ts" 0
    { record_type := "vendor"
      vendor_id := some "VND001"
      phones := [⟨"VND001-P001", "d", "b", "m", "i", "r", "Received", false, false, none⟩,
        ⟨"VND001-P002", "d", "b", "m", "i", "r", "Received", false, false, none⟩,
        ⟨"VND001-P003", "d", "b", "m", "i", "r", "Received", false, false, none⟩] }
    (by decide) (by decide) (by decide) (by decide)
  rw [h.2.1]
  decide

/-! ## Claim C2: vendor-bill creation validation -/

/-- C2 (counterexample): the claim says creation fails, leaving the store
unchanged, whenever any named phone id is already billed. In a store whose
only phone `VND001-P001` is already billed under `VND001-B001`, invoking the
save with exactly that id does not fail: it creates `VND001-B002`, mutates
the store, and the phone now appears in two bills. -/
theorem c2_counterexample :
    (saveVendorBill
      [{ record_type := "vendor"
         vendor_id := some "VND001"
         phones := [⟨"VND001-P001", "d", "b", "m", "i", "r", "Billed", false, true,
           some "VND001-B001"⟩]
         bills := [⟨"VND001-B001", "VND001-B001", "d", ["VND001-P001"], [], 0, 0, 0,
           "t", none⟩] }]
      "VND001" (some ["VND001-P001"]) [] 0 0 0 none "d2" "t2").outcome =
        .created "VND001-B002" ∧
    (saveVendorBill
      [{ record_type := "vendor"
         vendor_id := some "VND001"
         phones := [⟨"VND001-P001", "d", "b", "m", "i", "r", "Billed", false, true,
           some "VND001-B001"⟩]
         bills := [⟨"VND001-B001", "VND001-B001", "d", ["VND001-P001"], [], 0, 0, 0,
           "t", none⟩] }]
      "VND001" (some ["VND001-P001"]) [] 0 0 0 none "d2" "t2").records ≠
      [{ record_type := "vendor"
         vendor_id := some "VND001"
         phones := [⟨"VND001-P001", "d", "b", "m", "i", "r", "Billed", false, true,
           some "VND001-B001"⟩]
         bills := [⟨"VND001-B001", "VND001-B001", "d", ["VND001-P001"], [], 0, 0, 0,
           "t", none⟩] }] ∧
    ((saveVendorBill
      [{ record_type := "vendor"
         vendor_id := some "VND001"
         phones := [⟨"VND001-P001", "d", "b", "m", "i", "r", "Billed", false, true,
           some "VND001-B001"⟩]
         bills := [⟨"VND001-B001", "VND001-B001", "d", ["VND001-P001"], [], 0, 0, 0,
           "t", none⟩] }]
      "VND001" (some ["VND001-P001"]) [] 0 0 0 none "d2" "t2").records.map
        (fun r => billCount r.bills "VND001-P001")) = [2] := by
  refine ⟨by decide, by decide, by decide⟩

/-- C2 (amended): an empty phone-id selection blocks the mutation entirely
(the alert-and-return path performs no record-store replace and leaves the
store unchanged); the already-billed condition is NOT validated inside the
save operation — it is enforced upstream by the UI, which renders a billed
phone's checkbox disabled and unchecked, so no billed phone is ever part of
a submitted selection. -/
theorem c2_amended (records : List Rec) (vendorId : String) (items : List LineItem)
    (subtotal tax grandTotal : ℚ) (editingBillId : Option String)
    (todayDate nowTs : String) (i : ℕ) (vendor : Rec)
    (hfind : records.findIdx? (fun r => r.vendor_id = some vendorId) = some i)
    (hget : records[i]? = some vendor) :
    saveVendorBill records vendorId (some []) items subtotal tax grandTotal
      editingBillId todayDate nowTs = ⟨records, 0, .noPhones⟩ ∧
    (∀ p : Phone, p.billed = true → p.status = "Billed" → selectablePhone p = false) := by
  constructor
  · simp only [saveVendorBill, hfind, hget, List.isEmpty_nil, if_true]
  · intro p h1 h2
    simp [selectablePhone, checkboxDisabled, checkboxPrechecked, h1, h2]

/-- C2 (witness): the amended statement at a one-vendor store. -/
theorem c2_amended_witness :
    saveVendorBill
      [{ record_type := "vendor"
         vendor_id := some "VND001"
         phones := [⟨"VND001-P001", "d", "b", "m", "i", "r", "Received", false, false, none⟩] }]
      "VND001" (some []) [] 0 0 0 none "d" "t" =
      ⟨[{ record_type := "vendor"
          vendor_id := some "VND001"
          phones := [⟨"VND001-P001", "d", "b", "m", "i", "r", "Received", false, false, none⟩] }],
        0, .noPhones⟩ := by
  exact (c2_amended
    [{ record_type := "vendor"
       vendor_id := some "VND001"
       phones := [⟨"VND001-P001", "d", "b", "m", "i", "r", "Received", false, false, none⟩] }]
    "VND001" [] 0 0 0 none "d" "t" 0
    { record_type := "vendor"
      vendor_id := some "VND001"
      phones := [⟨"VND001-P001", "d", "b", "m", "i", "r", "Received", false, false, none⟩] }
    (by decide) (by decide)).1

/-! ## Claim C8: in-place bill edit -/

/-- C8 (counterexample): the claim says an edit with an unknown bill id
fails with a not-found error, creating or modifying nothing. In a store with
vendor `VND001` (no bills, one unbilled phone), saving with editing id
`VND001-B099` does not fail: control falls through the edit branch and
creates a brand-new bill `VND001-B001`, mutating the store. -/
theorem c8_counterexample :
    (saveVendorBill
      [{ record_type := "vendor"
         vendor_id := some "VND001"
         phones := [⟨"VND001-P001", "d", "b", "m", "i", "r", "Ready", true, false, none⟩] }]
      "VND001" (some ["VND001-P001"]) [] 0 0 0 (some "VND001-B099") "d2" "t2").outcome =
        .created "VND001-B001" ∧
    (saveVendorBill
      [{ record_type := "vendor"
         vendor_id := some "VND001"
         phones := [⟨"VND001-P001", "d", "b", "m", "i", "r", "Ready", true, false, none⟩] }]
      "VND001" (some ["VND001-P001"]) [] 0 0 0 (some "VND001-B099") "d2" "t2").records ≠
      [{ record_type := "vendor"
         vendor_id := some "VND001"
         phones := [⟨"VND001-P001", "d", "b", "m", "i", "r", "Ready", true, false, none⟩] }] ∧
    (saveVendorBill
      [{ record_type := "vendor"
         vendor_id := some "VND001"
         phones := [⟨"VND001-P001", "d", "b", "m", "i", "r", "Ready", true, false, none⟩] }]
      "VND001" (some ["VND001-P001"]) [] 0 0 0 (some "VND001-B099") "d2" "t2").saves = 1 := by
  refine ⟨by decide, by decide, by decide⟩

/-- C8 (amended): when the editing bill id exists among the vendor's bills,
the save replaces only that bill's items and totals in place (stamping
`updated_at`), keeps the bill's identity, date and phone-id set, triggers no
phone mutation, and performs a single record-store replace; when the id is
unknown the operation does not fail but falls through to creating a new
bill. -/
theorem c8_amended (records : List Rec) (vendorId billId : String)
    (selected : List String) (items : List LineItem) (subtotal tax grandTotal : ℚ)
    (todayDate nowTs : String) (i : ℕ) (vendor : Rec) (bIdx : ℕ) (bill : VendorBill)
    (hfind : records.findIdx? (fun r => r.vendor_id = some vendorId) = some i)
    (hget : records[i]? = some vendor)
    (hne : selected ≠ [])
    (hbfind : vendor.bills.findIdx? (fun b => b.bill_id = billId) = some bIdx)
    (hbget : vendor.bills[bIdx]? = some bill) :
    saveVendorBill records vendorId (some selected) items subtotal tax grandTotal
        (some billId) todayDate nowTs =
      ⟨records.set i
        { vendor with bills := vendor.bills.set bIdx
                        { bill with
                          items := items
                          subtotal := subtotal
                          tax := tax
                          grand_total := grandTotal
                          updated_at := some nowTs } },
        1, .edited billId⟩ ∧
    ({ bill with
      items := items
      subtotal := subtotal
      tax := tax
      grand_total := grandTotal
      updated_at := some nowTs } : VendorBill).bill_id = bill.bill_id ∧
    ({ bill with
      items := items
      subtotal := subtotal
      tax := tax
      grand_total := grandTotal
      updated_at := some nowTs } : VendorBill).phone_ids = bill.phone_ids ∧
    ({ bill with
      items := items
      subtotal := subtotal
      tax := tax
      grand_total := grandTotal
      updated_at := some nowTs } : VendorBill).date = bill.date ∧
    ({ vendor with bills := vendor.bills.set bIdx
                     { bill with
                       items := items
                       subtotal := subtotal
                       tax := tax
                       grand_total := grandTotal
                       updated_at := some nowTs } } : Rec).phones = vendor.phones := by
  obtain ⟨a, rest, rfl⟩ : ∃ a rest, selected = a :: rest := by
    cases selected with
    | nil => exact absurd rfl hne
    | cons a rest => exact ⟨a, rest, rfl⟩
  refine ⟨?_, rfl, rfl, rfl, rfl⟩
  simp only [saveVendorBill, hfind, hget, hbfind, hbget, List.isEmpty_cons,
    Bool.false_eq_true, if_false]

/-- C8 (witness): an in-place edit of the only bill of a one-bill vendor. -/
theorem c8_amended_witness :
    (saveVendorBill
      [{ record_type := "vendor"
         vendor_id := some "VND001"
         phones := [⟨"VND001-P001", "d", "b", "m", "i", "r", "Billed", false, true,
           some "VND001-B001"⟩]
         bills := [⟨"VND001-B001", "VND001-B001", "d", ["VND001-P001"], [], 5, 0, 5,
           "t", none⟩] }]
      "VND001" (some ["VND001-P001"]) [⟨"part", "", 7, 1, 7⟩] 7 0 7
      (some "VND001-B001") "d2" "t2").outcome = .edited "VND001-B001" := by
  have h := c8_amended
    [{ record_type := "vendor"
       vendor_id := some "VND001"
       phones := [⟨"VND001-P001", "d", "b", "m", "i", "r", "Billed", false, true,
         some "VND001-B001"⟩]
       bills := [⟨"VND001-B001", "VND001-B001", "d", ["VND001-P001"], [], 5, 0, 5,
         "t", none⟩] }]
    "VND001" "VND001-B001" ["VND001-P001"] [⟨"part", "", 7, 1, 7⟩] 7 0 7 "d2" "t2" 0
    { record_type := "vendor"
      vendor_id := some "VND001"
      phones := [⟨"VND001-P001", "d", "b", "m", "i", "r", "Billed", false, true,
        some "VND001-B001"⟩]
      bills := [⟨"VND001-B001", "VND001-B001", "d", ["VND001-P001"], [], 5, 0, 5,
        "t", none⟩] }
    0 ⟨"VND001-B001", "VND001-B001", "d", ["VND001-P001"], [], 5, 0, 5, "t", none⟩
    (by decide) (by decide) (by decide) (by decide) (by decide)
  rw [h.1]

/-! ## Claim C6: bill totals -/

/-- C6 (counterexample): the claim says rounding is applied at presentation
time only and internal arithmetic is unrounded; but every consumer of the
totals (including `saveVendorBill`, which persists them) reads them back
with `parseFloat` from the `toFixed(2)`-rendered text. With one item of 100
and tax percent 0.125 the computed tax is 0.125, while the value read back
and stored is its two-decimal rounding 0.13 — internal stored arithmetic IS
rounded. -/
theorem c6_counterexample :
    updateItemTotal (some 100) (some 1) = 100 ∧
    (updateBillTotals [100] (some (1 / 8))).taxAmount = 1 / 8 ∧
    round2 (updateBillTotals [100] (some (1 / 8))).taxAmount = 13 / 100 ∧
    (13 / 100 : ℚ) ≠ 1 / 8 := by
  refine ⟨?_, ?_, ?_, ?_⟩ <;>
    norm_num [updateItemTotal, itemTotalRaw, jsNumOr, jsIntOr, round2, updateBillTotals]

/-- C6 (amended): the computed (pre-rendering) totals satisfy the three
identities exactly: `subtotal = Σ item totals`,
`taxAmount = subtotal * taxPercent / 100`, `grandTotal = subtotal +
taxAmount`. A stored bill — whose totals are the two-decimal renderings of
the computed ones parsed back, and whose item totals are two-decimal cell
values — still satisfies `grand_total = subtotal + tax` and
`subtotal = Σ line-item totals` exactly; but the stored values are rounded
to two decimals at each save, not only at presentation. -/
theorem c6_amended (items : List LineItem) (taxInput : Option ℚ)
    (hitems : ∀ it ∈ items, round2 it.total = it.total) :
    (updateBillTotals (items.map LineItem.total) taxInput).subtotal =
      (items.map LineItem.total).sum ∧
    (updateBillTotals (items.map LineItem.total) taxInput).taxAmount =
      (updateBillTotals (items.map LineItem.total) taxInput).subtotal *
        jsNumOr taxInput 0 / 100 ∧
    (updateBillTotals (items.map LineItem.total) taxInput).grandTotal =
      (updateBillTotals (items.map LineItem.total) taxInput).subtotal +
        (updateBillTotals (items.map LineItem.total) taxInput).taxAmount ∧
    (∀ b : VendorBill,
      b.items = items →
      b.subtotal = round2 (updateBillTotals (items.map LineItem.total) taxInput).subtotal →
      b.tax = round2 (updateBillTotals (items.map LineItem.total) taxInput).taxAmount →
      b.grand_total = round2 (updateBillTotals (items.map LineItem.total) taxInput).grandTotal →
      b.grand_total = b.subtotal + b.tax ∧
      b.subtotal = (b.items.map LineItem.total).sum) := by
  have hfix : round2 (items.map LineItem.total).sum = (items.map LineItem.total).sum := by
    apply round2_sum_fix
    intro c hc
    obtain ⟨it, hit, rfl⟩ := List.mem_map.mp hc
    exact hitems it hit
  refine ⟨rfl, rfl, rfl, ?_⟩
  intro b hbitems hbsub hbtax hbgrand
  constructor
  · rw [hbgrand, hbsub, hbtax]
    show round2 ((items.map LineItem.total).sum +
      (updateBillTotals (items.map LineItem.total) taxInput).taxAmount) = _
    rw [round2_add_fix hfix]
    show _ = round2 (items.map LineItem.total).sum + _
    rw [hfix]
  · rw [hbsub, hbitems]
    show round2 (items.map LineItem.total).sum = _
    rw [hfix]

/-- C6 (witness): one item of 100, tax 0.125%: stored subtotal 100, stored
tax 0.13, stored grand total 100.13 satisfy the stored-bill identities. -/
theorem c6_amended_witness :
    (⟨"B", "B", "d", [], [⟨"svc", "", 100, 1, 100⟩], 100, 13 / 100, 10013 / 100,
      "t", none⟩ : VendorBill).grand_total =
      (⟨"B", "B", "d", [], [⟨"svc", "", 100, 1, 100⟩], 100, 13 / 100, 10013 / 100,
        "t", none⟩ : VendorBill).subtotal +
      (⟨"B", "B", "d", [], [⟨"svc", "", 100, 1, 100⟩], 100, 13 / 100, 10013 / 100,
        "t", none⟩ : VendorBill).tax ∧
    (⟨"B", "B", "d", [], [⟨"svc", "", 100, 1, 100⟩], 100, 13 / 100, 10013 / 100,
      "t", none⟩ : VendorBill).subtotal =
      ((⟨"B", "B", "d", [], [⟨"svc", "", 100, 1, 100⟩], 100, 13 / 100, 10013 / 100,
        "t", none⟩ : VendorBill).items.map LineItem.total).sum := by
  exact (c6_amended [⟨"svc", "", 100, 1, 100⟩] (some (1 / 8))
    (by
      intro it hit
      simp only [List.mem_singleton] at hit
      subst hit
      norm_num [round2])).2.2.2
    ⟨"B", "B", "d", [], [⟨"svc", "", 100, 1, 100⟩], 100, 13 / 100, 10013 / 100, "t", none⟩
    rfl
    (by norm_num [updateBillTotals, round2])
    (by norm_num [updateBillTotals, jsNumOr, round2])
    (by norm_num [updateBillTotals, jsNumOr, round2])

/-! ## Support lemmas: folded maxima -/

theorem foldr_max_le {L : List ℕ} {k : ℕ} (h : ∀ x ∈ L, x ≤ k) :
    L.foldr max 0 ≤ k := by
  induction L with
  | nil => exact Nat.zero_le k
  | cons a L ih =>
    rw [List.foldr_cons]
    exact max_le (h a (List.mem_cons_self a L)) (ih fun x hx => h x (List.mem_cons_of_mem _ hx))

theorem le_foldr_max {L : List ℕ} {x : ℕ} (hx : x ∈ L) : x ≤ L.foldr max 0 := by
  induction L with
  | nil => cases hx
  | cons a L ih =>
    rw [List.foldr_cons]
    rcases List.mem_cons.mp hx with rfl | hmem
    · exact le_max_left _ _
    · exact le_trans (ih hmem) (le_max_right _ _)

theorem foldl_max_eq_foldr_max (L : List ℕ) (a : ℕ) :
    L.foldl max a = max a (L.foldr max 0) := by
  induction L generalizing a with
  | nil => simp
  | cons b L ih =>
    rw [List.foldl_cons, List.foldr_cons, ih (max a b), max_assoc]

theorem foldr_max_perm {L1 L2 : List ℕ} (hp : L1.Perm L2) :
    L1.foldr max 0 = L2.foldr max 0 := by
  haveI : LeftCommutative (fun (x m : ℕ) => max x m) :=
    ⟨fun a b c => by rw [← max_assoc, max_comm a b, max_assoc]⟩
  exact hp.foldr_eq 0

/-! ## Claim C4: identifier generation -/

/-- The tracked running maximum of `generateLaptopID` equals the maximum of
the parsed suffixes. -/
theorem foldl_laptop_max (l : List Rec) (m : ℕ) :
    l.foldl (fun m r =>
      match parseIntNat ((jsStrOr r.laptop_id "").drop 3) with
      | some n => if m < n then n else m
      | none => m) m =
    max m ((l.map (fun r => suffixVal (jsStrOr r.laptop_id ""))).foldr max 0) := by
  induction l generalizing m with
  | nil => simp
  | cons a L ih =>
    rw [List.foldl_cons, ih, List.map_cons, List.foldr_cons, ← max_assoc]
    congr 1
    unfold suffixVal
    cases hp : parseIntNat ((jsStrOr a.laptop_id "").drop 3) with
    | none => simp
    | some n =>
      simp only [Option.getD_some]
      rcases Nat.lt_or_ge m n with h | h
      · rw [if_pos h, max_eq_right (le_of_lt h)]
      · rw [if_neg (Nat.not_lt.mpr h), max_eq_left h]

/-- `generateLaptopID` refines the spec contract: it equals
`specNextId "LAP"` applied to the identifiers of the laptop family. -/
theorem generateLaptopID_eq_spec (records : List Rec) :
    generateLaptopID records =
      specNextId "LAP" ((records.filter (fun r => r.record_type = "laptop")).map
        (fun r => jsStrOr r.laptop_id "")) := by
  unfold generateLaptopID specNextId
  cases hl : records.filter (fun r => r.record_type = "laptop") with
  | nil => simp
  | cons a L =>
    simp only [List.isEmpty_cons, Bool.false_eq_true, if_false]
    rw [foldl_laptop_max, Nat.zero_max, List.map_map]
    rfl

/-- `generateLaptopID` is invariant under permutations of the store: the
maximum-based scan is robust to out-of-order records. -/
theorem generateLaptopID_perm {records records' : List Rec}
    (hp : records.Perm records') :
    generateLaptopID records = generateLaptopID records' := by
  rw [generateLaptopID_eq_spec, generateLaptopID_eq_spec]
  have hids : ((records.filter (fun r => r.record_type = "laptop")).map
      (fun r => jsStrOr r.laptop_id "")).Perm
      ((records'.filter (fun r => r.record_type = "laptop")).map
      (fun r => jsStrOr r.laptop_id "")) := (hp.filter _).map _
  have hlen := hids.length_eq
  have hfold := foldr_max_perm (hids.map (fun id => (parseIntNat (id.drop 3)).getD 0))
  unfold specNextId
  have hempty : ((records.filter (fun r => r.record_type = "laptop")).map
      (fun r => jsStrOr r.laptop_id "")).isEmpty =
    ((records'.filter (fun r => r.record_type = "laptop")).map
      (fun r => jsStrOr r.laptop_id "")).isEmpty := by
    cases h1 : (records.filter (fun r => r.record_type = "laptop")).map
        (fun r => jsStrOr r.laptop_id "") <;>
      cases h2 : (records'.filter (fun r => r.record_type = "laptop")).map
        (fun r => jsStrOr r.laptop_id "") <;>
      rw [h1, h2] at hlen <;> simp_all
  rw [hempty, hfold]

/-- C4 (counterexample): the claim says all three generators return the
family prefix plus zero-padded (maximum suffix + 1), robust to out-of-order
records. `generateServiceID` uses the last record of the WHOLE store (no
family filter) and `generateVendorID` the last vendor record, not the
maximum: with service records out of order `[SRV002, SRV001]` the service
generator returns the duplicate `SRV002` instead of `SRV003`; with a vendor
record last in the store it returns `SRV001` regardless of existing service
ids; with vendors `[VND003, VND001]` the vendor generator returns `VND002`
instead of `VND004`. -/
theorem c4_counterexample :
    generateServiceID
      [{ record_type := "service", service_id := some "SRV002" },
       { record_type := "service", service_id := some "SRV001" }] = "SRV002" ∧
    specNextId "SRV" ["SRV002", "SRV001"] = "SRV003" ∧
    generateServiceID
      [{ record_type := "service", service_id := some "SRV005" },
       { record_type := "vendor", vendor_id := some "VND001" }] = "SRV001" ∧
    specNextId "SRV" ["SRV005"] = "SRV006" ∧
    generateVendorID
      [{ record_type := "vendor", vendor_id := some "VND003" },
       { record_type := "vendor", vendor_id := some "VND001" }] = "VND002" ∧
    specNextId "VND" ["VND003", "VND001"] = "VND004" := by
  refine ⟨by decide, by decide, by decide, by decide, by decide, by decide⟩

/-- C4 (amended): only the laptop generator implements the max-based
contract, for every store and robustly under record reordering; the service
and vendor generators use the suffix of the LAST record (for services, the
last record of the whole unfiltered store) plus one, so they agree with the
max-based contract exactly when that last record carries the family's
maximal suffix — in particular on in-order stores. -/
theorem c4_amended :
    (∀ records : List Rec, generateLaptopID records =
      specNextId "LAP" ((records.filter (fun r => r.record_type = "laptop")).map
        (fun r => jsStrOr r.laptop_id ""))) ∧
    (∀ records records' : List Rec, records.Perm records' →
      generateLaptopID records = generateLaptopID records') ∧
    (∀ (records : List Rec) (r : Rec) (id : String) (k : ℕ),
      (records.filter (fun x => x.record_type = "vendor")).getLast? = some r →
      r.vendor_id = some id → id ≠ "" → parseIntNat (id.drop 3) = some k →
      (∀ x ∈ records.filter (fun x => x.record_type = "vendor"),
        suffixVal (jsStrOr x.vendor_id "") ≤ k) →
      generateVendorID records =
        specNextId "VND" ((records.filter (fun x => x.record_type = "vendor")).map
          (fun x => jsStrOr x.vendor_id ""))) ∧
    (∀ (records : List Rec) (r : Rec) (id : String) (k : ℕ),
      records.getLast? = some r → r.record_type = "service" →
      r.service_id = some id → id ≠ "" → parseIntNat (id.drop 3) = some k →
      (∀ x ∈ records.filter (fun x => x.record_type = "service"),
        suffixVal (jsStrOr x.service_id "") ≤ k) →
      generateServiceID records =
        specNextId "SRV" ((records.filter (fun x => x.record_type = "service")).map
          (fun x => jsStrOr x.service_id ""))) := by
  refine ⟨generateLaptopID_eq_spec, fun _ _ hp => generateLaptopID_perm hp, ?_, ?_⟩
  · intro records r id k hlast hvid hne hparse hbound
    have hmemf : r ∈ records.filter (fun x => x.record_type = "vendor") :=
      List.mem_of_mem_getLast? (by rw [hlast]; rfl)
    have hval : suffixVal (jsStrOr r.vendor_id "") = k := by
      rw [hvid]
      simp only [jsStrOr, suffixVal]
      rw [if_neg hne, hparse]
      rfl
    have hmax : ((records.filter (fun x => x.record_type = "vendor")).map
        (fun x => suffixVal (jsStrOr x.vendor_id ""))).foldr max 0 = k := by
      apply le_antisymm
      · apply foldr_max_le
        intro v hv
        obtain ⟨x, hx, rfl⟩ := List.mem_map.mp hv
        exact hbound x hx
      · rw [← hval]
        exact le_foldr_max (List.mem_map_of_mem _ hmemf)
    have hlid : jsStrOr r.vendor_id "VND000" = id := by
      rw [hvid]
      simp only [jsStrOr]
      rw [if_neg hne]
    unfold generateVendorID specNextId
    rw [hlast]
    simp only [hlid, hparse]
    have hne2 : ((records.filter (fun x => x.record_type = "vendor")).map
        (fun x => jsStrOr x.vendor_id "")).isEmpty = false := by
      cases hmap : (records.filter (fun x => x.record_type = "vendor")).map
          (fun x => jsStrOr x.vendor_id "") with
      | nil =>
        rw [List.map_eq_nil_iff.mp hmap] at hmemf
        cases hmemf
      | cons a L => rfl
    rw [hne2]
    simp only [Bool.false_eq_true, if_false, List.map_map]
    rw [show ((fun id => (parseIntNat (id.drop 3)).getD 0) ∘
      (fun x => jsStrOr x.vendor_id "")) =
      (fun x : Rec => suffixVal (jsStrOr x.vendor_id "")) from rfl]
    rw [hmax]
  · intro records r id k hlast htype hsid hne hparse hbound
    have hmem : r ∈ records := List.mem_of_mem_getLast? (by rw [hlast]; rfl)
    have hmemf : r ∈ records.filter (fun x => x.record_type = "service") :=
      List.mem_filter.mpr ⟨hmem, by rw [htype]; rfl⟩
    have hval : suffixVal (jsStrOr r.service_id "") = k := by
      rw [hsid]
      simp only [jsStrOr, suffixVal]
      rw [if_neg hne, hparse]
      rfl
    have hmax : ((records.filter (fun x => x.record_type = "service")).map
        (fun x => suffixVal (jsStrOr x.service_id ""))).foldr max 0 = k := by
      apply le_antisymm
      · apply foldr_max_le
        intro v hv
        obtain ⟨x, hx, rfl⟩ := List.mem_map.mp hv
        exact hbound x hx
      · rw [← hval]
        exact le_foldr_max (List.mem_map_of_mem _ hmemf)
    have hlid : jsStrOr r.service_id "SRV000" = id := by
      rw [hsid]
      simp only [jsStrOr]
      rw [if_neg hne]
    unfold generateServiceID specNextId
    rw [hlast]
    simp only [hlid, hparse]
    have hne2 : ((records.filter (fun x => x.record_type = "service")).map
        (fun x => jsStrOr x.service_id "")).isEmpty = false := by
      cases hmap : (records.filter (fun x => x.record_type = "service")).map
          (fun x => jsStrOr x.service_id "") with
      | nil =>
        rw [List.map_eq_nil_iff.mp hmap] at hmemf
        cases hmemf
      | cons a L => rfl
    rw [hne2]
    simp only [Bool.false_eq_true, if_false, List.map_map]
    rw [show ((fun id => (parseIntNat (id.drop 3)).getD 0) ∘
      (fun x => jsStrOr x.service_id "")) =
      (fun x : Rec => suffixVal (jsStrOr x.service_id "")) from rfl]
    rw [hmax]

/-- C4 (witness): the amended statement instantiated on small concrete
stores — laptops out of order, vendors and services in order. -/
theorem c4_amended_witness :
    generateLaptopID [{ record_type := "laptop", laptop_id := some "LAP002" },
      { record_type := "laptop", laptop_id := some "LAP001" }] = "LAP003" ∧
    generateVendorID [{ record_type := "vendor", vendor_id := some "VND001" },
      { record_type := "vendor", vendor_id := some "VND002" }] = "VND003" ∧
    generateServiceID [{ record_type := "service", service_id := some "SRV001" },
      { record_type := "service", service_id := some "SRV002" }] = "SRV003" := by
  obtain ⟨hA, hB, hC, hD⟩ := c4_amended
  refine ⟨?_, ?_, ?_⟩
  · rw [hA]
    decide
  · rw [hC [{ record_type := "vendor", vendor_id := some "VND001" },
        { record_type := "vendor", vendor_id := some "VND002" }]
      { record_type := "vendor", vendor_id := some "VND002" } "VND002" 2
      (by decide) (by decide) (by decide) (by decide) (by decide)]
    decide
  · rw [hD [{ record_type := "service", service_id := some "SRV001" },
        { record_type := "service", service_id := some "SRV002" }]
      { record_type := "service", service_id := some "SRV002" } "SRV002" 2
      (by decide) (by decide) (by decide) (by decide) (by decide) (by decide)]
    decide

/-! ## Support lemmas: list surgery and the phone-status walk -/

theorem set_of_getElem?_eq {α : Type} (l : List α) (i : ℕ) (a : α)
    (h : l[i]? = some a) : l.set i a = l := by
  induction l generalizing i with
  | nil => cases h
  | cons b rest ih =>
    cases i with
    | zero =>
      rw [List.getElem?_cons_zero] at h
      rw [List.set_cons_zero, Option.some.inj h]
    | succ n =>
      rw [List.getElem?_cons_succ] at h
      rw [List.set_cons_succ, ih n h]

theorem getElem?_lt_length {α : Type} {l : List α} {i : ℕ} {a : α}
    (h : l[i]? = some a) : i < l.length := by
  by_contra hle
  rw [List.getElem?_eq_none (Nat.le_of_not_lt hle)] at h
  exact Option.noConfusion h

theorem updateFirst_get? (ps : List Phone) (pid ns : String) (i : ℕ) :
    (updateFirst ps pid ns)[i]? = ps[i]? ∨
    ∃ q : Phone, ps[i]? = some q ∧ q.phone_id = pid ∧
      (updateFirst ps pid ns)[i]? = some (setPhoneStatus q ns) := by
  induction ps generalizing i with
  | nil => left; rfl
  | cons p rest ih =>
    unfold updateFirst
    by_cases hpid : p.phone_id = pid
    · rw [if_pos hpid]
      cases i with
      | zero =>
        right
        exact ⟨p, List.getElem?_cons_zero, hpid, List.getElem?_cons_zero⟩
      | succ n =>
        left
        rw [List.getElem?_cons_succ, List.getElem?_cons_succ]
    · rw [if_neg hpid]
      cases i with
      | zero =>
        left
        rw [List.getElem?_cons_zero, List.getElem?_cons_zero]
      | succ n =>
        rw [List.getElem?_cons_succ, List.getElem?_cons_succ]
        exact ih n

theorem updatePhoneStatus_get? (records : List Rec) (pid ns : String) (j : ℕ) :
    (updatePhoneStatus records pid ns)[j]? = records[j]? ∨
    ∃ r : Rec, records[j]? = some r ∧ r.record_type = "vendor" ∧
      (updatePhoneStatus records pid ns)[j]? =
        some { r with phones := updateFirst r.phones pid ns } := by
  induction records generalizing j with
  | nil => left; rfl
  | cons r rest ih =>
    unfold updatePhoneStatus
    by_cases hcond : (r.record_type = "vendor" &&
        r.phones.any (fun p => p.phone_id = pid) : Bool) = true
    · rw [if_pos hcond]
      cases j with
      | zero =>
        right
        refine ⟨r, List.getElem?_cons_zero, ?_, List.getElem?_cons_zero⟩
        have := (Bool.and_eq_true _ _).mp hcond
        exact of_decide_eq_true this.1
      | succ n =>
        left
        rw [List.getElem?_cons_succ, List.getElem?_cons_succ]
    · rw [if_neg hcond]
      cases j with
      | zero =>
        left
        rw [List.getElem?_cons_zero, List.getElem?_cons_zero]
      | succ n =>
        rw [List.getElem?_cons_succ, List.getElem?_cons_succ]
        exact ih n

/-- A phone whose `billed` flag tracks a `Billed` status cannot be part of a
billing selection: its checkbox is disabled and rendered unchecked. -/
theorem selectable_billed_false {p : Phone}
    (hbs : p.billed = true ↔ p.status = "Billed")
    (hsel : selectablePhone p = true) : p.billed = false := by
  by_contra hb
  have hb' : p.billed = true := by
    cases h : p.billed
    · exact absurd h hb
    · rfl
  have hst := hbs.mp hb'
  unfold selectablePhone checkboxDisabled checkboxPrechecked at hsel
  rw [hst, hb'] at hsel
  simp at hsel

theorem countP_le_one_of_pairwise_disj {pidss : List (List String)}
    (hdisj : pidss.Pairwise (fun l1 l2 => ∀ pid ∈ l1, pid ∉ l2)) (pid : String) :
    pidss.countP (fun pids => pids.contains pid) ≤ 1 := by
  induction pidss with
  | nil => exact Nat.zero_le 1
  | cons l rest ih =>
    obtain ⟨hl, hrest⟩ := List.pairwise_cons.mp hdisj
    rw [List.countP_cons]
    by_cases hc : (l.contains pid : Bool) = true
    · have hzero : rest.countP (fun pids => pids.contains pid) = 0 := by
        apply List.countP_eq_zero.mpr
        intro l2 hl2 hcl2
        exact hl l2 hl2 pid (List.elem_iff.mp hc) (List.elem_iff.mp (by simpa using hcl2))
      rw [hzero]
      simp only [Nat.zero_add]
      split <;> omega
    · rw [if_neg (by simpa using hc)]
      simpa using ih hrest

/-- Billed iff count one, together with pairwise disjointness, pins an
unbilled phone's bill count to zero. -/
theorem billCount_eq_zero_of_unbilled {bills : List VendorBill} {p : Phone}
    (hiff : p.billed = true ↔ billCount bills p.phone_id = 1)
    (hdisj : (billsPids bills).Pairwise (fun l1 l2 => ∀ pid ∈ l1, pid ∉ l2))
    (hb : p.billed = false) : billCount bills p.phone_id = 0 := by
  have hle := countP_le_one_of_pairwise_disj hdisj p.phone_id
  have hne : billCount bills p.phone_id ≠ 1 := by
    intro h1
    rw [hiff.mpr h1] at hb
    exact Bool.noConfusion hb
  unfold billCount at hne ⊢
  omega

/-! ## Characterizations of the store operations -/

theorem addPhoneSubmit_eq {records records' : List Rec} {vendorId : String}
    {form : PhoneForm}
    (h : addPhoneSubmit records vendorId form = some records') :
    ∃ (i : ℕ) (vendor : Rec),
      records.findIdx? (fun r => r.vendor_id = some vendorId) = some i ∧
      records[i]? = some vendor ∧
      vendor.vendor_id = some vendorId ∧
      records' = records.set i { vendor with phones := vendor.phones ++
        [⟨generatePhoneID vendorId (vendor.phones.length + 1), form.date_received,
          form.brand, form.model, form.issue, form.received_by,
          "Received", false, false, none⟩] } := by
  unfold addPhoneSubmit at h
  cases hfind : records.findIdx? (fun r => r.vendor_id = some vendorId) with
  | none => rw [hfind] at h; cases h
  | some i =>
    rw [hfind] at h
    dsimp only at h
    cases hget : records[i]? with
    | none => rw [hget] at h; cases h
    | some vendor =>
      rw [hget] at h
      dsimp only at h
      obtain ⟨hlt, hp, -⟩ := List.findIdx?_eq_some_iff_getElem.mp hfind
      have hv : records[i] = vendor := by
        rw [List.getElem?_eq_getElem hlt] at hget
        exact Option.some.inj hget
      refine ⟨i, vendor, rfl, hget, ?_, (Option.some.inj h).symm⟩
      rw [← hv]
      exact of_decide_eq_true hp

theorem saveVendorBill_create_eq (records : List Rec) (vendorId : String)
    (selected : List String) (items : List LineItem) (subtotal tax grandTotal : ℚ)
    (todayDate nowTs : String) (i : ℕ) (vendor : Rec)
    (hfind : records.findIdx? (fun r => r.vendor_id = some vendorId) = some i)
    (hget : records[i]? = some vendor) :
    (saveVendorBill records vendorId (some selected) items subtotal tax grandTotal
        none todayDate nowTs).records =
      if selected.isEmpty then records
      else records.set i { vendor with
        bills := vendor.bills ++
          [⟨generateBillID vendorId (vendor.bills.length + 1),
            generateBillID vendorId (vendor.bills.length + 1), todayDate, selected,
            items, subtotal, tax, grandTotal, nowTs, none⟩]
        phones := vendor.phones.map (fun p =>
          if selected.contains p.phone_id then
            { p with
              billed := true
              bill_id := some (generateBillID vendorId (vendor.bills.length + 1))
              status := "Billed" }
          else p) } := by
  cases selected with
  | nil => simp only [saveVendorBill, hfind, hget, List.isEmpty_nil, if_true]
  | cons a rest =>
    simp only [saveVendorBill, hfind, hget, List.isEmpty_cons, Bool.false_eq_true,
      if_false]

theorem saveVendorBill_edit_eq (records : List Rec) (vendorId billId : String)
    (selected : List String) (items : List LineItem) (subtotal tax grandTotal : ℚ)
    (todayDate nowTs : String) (i : ℕ) (vendor : Rec) (bIdx : ℕ) (bill : VendorBill)
    (hfind : records.findIdx? (fun r => r.vendor_id = some vendorId) = some i)
    (hget : records[i]? = some vendor)
    (hne : selected ≠ [])
    (hbfind : vendor.bills.findIdx? (fun b => b.bill_id = billId) = some bIdx)
    (hbget : vendor.bills[bIdx]? = some bill) :
    (saveVendorBill records vendorId (some selected) items subtotal tax grandTotal
        (some billId) todayDate nowTs).records =
      records.set i { vendor with bills := vendor.bills.set bIdx
                                    { bill with
                                      items := items
                                      subtotal := subtotal
                                      tax := tax
                                      grand_total := grandTotal
                                      updated_at := some nowTs } } := by
  cases selected with
  | nil => exact absurd rfl hne
  | cons a rest =>
    simp only [saveVendorBill, hfind, hget, hbfind, hbget, List.isEmpty_cons,
      Bool.false_eq_true, if_false]

theorem exists_findIdx?_of_exists_mem {bills : List VendorBill} {billId : String}
    (hbill : ∃ b ∈ bills, b.bill_id = billId) :
    ∃ (bIdx : ℕ) (bill : VendorBill),
      bills.findIdx? (fun b => b.bill_id = billId) = some bIdx ∧
      bills[bIdx]? = some bill := by
  cases hidx : bills.findIdx? (fun b => b.bill_id = billId) with
  | none =>
    obtain ⟨b, hb, hbid⟩ := hbill
    have := List.findIdx?_eq_none_iff.mp hidx b hb
    rw [hbid] at this
    simp at this
  | some bIdx =>
    obtain ⟨hlt, -, -⟩ := List.findIdx?_eq_some_iff_getElem.mp hidx
    exact ⟨bIdx, bills[bIdx], rfl, List.getElem?_eq_getElem hlt⟩

/-! ## Claim C5: the Billed state is terminal and bill-creation-only -/

/-- C5 (confirmed): over every UI-triggered store mutation, (1) a phone
whose status is `Billed` keeps id and status — no further status
transition; (2) a phone moves into `Billed` only by a bill-creation step
that includes its id in the selection; in particular no status-update call
can set `Billed` (the dropdown exists only for non-`Billed` phones and
offers only `Received`/`In Repair`/`Ready`). Phones are addressed by their
(vendor index, phone index) position, which every operation preserves. -/
theorem c5_theorem (op : Op) (records records' : List Rec)
    (hstep : Step op records records') :
    (∀ (vi pi : ℕ) (v : Rec) (p : Phone),
      records[vi]? = some v → v.phones[pi]? = some p → p.status = "Billed" →
      ∃ (v' : Rec) (p' : Phone), records'[vi]? = some v' ∧ v'.phones[pi]? = some p' ∧
        p'.phone_id = p.phone_id ∧ p'.status = "Billed") ∧
    (∀ (vi pi : ℕ) (v v' : Rec) (p p' : Phone),
      records[vi]? = some v → v.phones[pi]? = some p →
      records'[vi]? = some v' → v'.phones[pi]? = some p' →
      p.status ≠ "Billed" → p'.status = "Billed" →
      ∃ vendorId selected items subtotal tax grandTotal todayDate nowTs,
        op = Op.billCreate vendorId selected items subtotal tax grandTotal
          todayDate nowTs ∧
        p.phone_id ∈ selected) := by
  cases hstep with
  | newVendor records =>
    constructor
    · intro vi pi v p hv hp hst
      refine ⟨v, p, ?_, hp, rfl, hst⟩
      rw [createVendorSubmit, List.getElem?_append_left (getElem?_lt_length hv)]
      exact hv
    · intro vi pi v v' p p' hv hp hv' hp' hnb hb
      rw [createVendorSubmit, List.getElem?_append_left (getElem?_lt_length hv),
        hv] at hv'
      obtain rfl := Option.some.inj hv'
      rw [hp] at hp'
      obtain rfl := Option.some.inj hp'
      exact absurd hb hnb
  | newPhone records records' vendorId form h =>
    obtain ⟨i, vendor, hfind, hget, hvid, rfl⟩ := addPhoneSubmit_eq h
    constructor
    · intro vi pi v p hv hp hst
      by_cases hvi : vi = i
      · subst hvi
        have hveq : vendor = v := Option.some.inj (hget.symm.trans hv)
        subst hveq
        refine ⟨_, p, List.getElem?_set_self (getElem?_lt_length hget), ?_, rfl, hst⟩
        dsimp only
        rw [List.getElem?_append_left (getElem?_lt_length hp)]
        exact hp
      · refine ⟨v, p, ?_, hp, rfl, hst⟩
        rw [List.getElem?_set_ne (fun he => hvi he.symm)]
        exact hv
    · intro vi pi v v' p p' hv hp hv' hp' hnb hb
      by_cases hvi : vi = i
      · subst hvi
        have hveq : vendor = v := Option.some.inj (hget.symm.trans hv)
        subst hveq
        rw [List.getElem?_set_self (getElem?_lt_length hget)] at hv'
        obtain rfl := Option.some.inj hv'
        dsimp only at hp'
        rw [List.getElem?_append_left (getElem?_lt_length hp), hp] at hp'
        obtain rfl := Option.some.inj hp'
        exact absurd hb hnb
      · rw [List.getElem?_set_ne (fun he => hvi he.symm), hv] at hv'
        obtain rfl := Option.some.inj hv'
        rw [hp] at hp'
        obtain rfl := Option.some.inj hp'
        exact absurd hb hnb
  | setStatus records phoneId newStatus hopt hshown =>
    have hnsB : newStatus ≠ "Billed" := by
      simp only [phoneStatusOptions, List.mem_cons, List.not_mem_nil, or_false] at hopt
      rcases hopt with rfl | rfl | rfl <;> decide
    constructor
    · intro vi pi v p hv hp hst
      rcases updatePhoneStatus_get? records phoneId newStatus vi with heq |
        ⟨r, hr, hrt, heq⟩
      · refine ⟨v, p, ?_, hp, rfl, hst⟩
        rw [heq]
        exact hv
      · rw [hv] at hr
        obtain rfl := Option.some.inj hr
      -- the phone at pi inside the updated vendor
        rcases updateFirst_get? v.phones phoneId newStatus pi with hpe |
          ⟨q, hq, hqid, hpe⟩
        · exact ⟨_, p, heq, by dsimp only; rw [hpe]; exact hp, rfl, hst⟩
        · rw [hp] at hq
          obtain rfl := Option.some.inj hq
          have hmemv : v ∈ records := List.getElem?_mem hv
          have hmemp : p ∈ v.phones := List.getElem?_mem hp
          have hshn := hshown v hmemv hrt p hmemp hqid
          unfold statusSelectShown at hshn
          rw [hst] at hshn
          simp at hshn
    · intro vi pi v v' p p' hv hp hv' hp' hnb hb
      rcases updatePhoneStatus_get? records phoneId newStatus vi with heq |
        ⟨r, hr, hrt, heq⟩
      · rw [heq, hv] at hv'
        obtain rfl := Option.some.inj hv'
        rw [hp] at hp'
        obtain rfl := Option.some.inj hp'
        exact absurd hb hnb
      · rw [hv] at hr
        obtain rfl := Option.some.inj hr
        rw [heq] at hv'
        obtain rfl := Option.some.inj hv'
        dsimp only at hp'
        rcases updateFirst_get? v.phones phoneId newStatus pi with hpe |
          ⟨q, hq, hqid, hpe⟩
        · rw [hpe, hp] at hp'
          obtain rfl := Option.some.inj hp'
          exact absurd hb hnb
        · rw [hp] at hq
          obtain rfl := Option.some.inj hq
          rw [hpe] at hp'
          obtain rfl := Option.some.inj hp'
          exact absurd hb (by simpa [setPhoneStatus] using hnsB)
  | billCreate records vendorId selected items subtotal tax grandTotal todayDate
      nowTs vendorIndex vendor hfind hget hsel =>
    have hrec := saveVendorBill_create_eq records vendorId selected items subtotal
      tax grandTotal todayDate nowTs vendorIndex vendor hfind hget
    by_cases hemp : selected.isEmpty = true
    · rw [if_pos hemp] at hrec
      constructor
      · intro vi pi v p hv hp hst
        refine ⟨v, p, ?_, hp, rfl, hst⟩
        rw [hrec]
        exact hv
      · intro vi pi v v' p p' hv hp hv' hp' hnb hb
        rw [hrec, hv] at hv'
        obtain rfl := Option.some.inj hv'
        rw [hp] at hp'
        obtain rfl := Option.some.inj hp'
        exact absurd hb hnb
    · rw [if_neg hemp] at hrec
      constructor
      · intro vi pi v p hv hp hst
        by_cases hvi : vi = vendorIndex
        · subst hvi
          have hveq : vendor = v := Option.some.inj (hget.symm.trans hv)
          subst hveq
          rw [hrec]
          refine ⟨_,
            (if (selected.contains p.phone_id : Bool) = true then
              { p with
                billed := true
                bill_id := some (generateBillID vendorId (vendor.bills.length + 1))
                status := "Billed" }
            else p),
            List.getElem?_set_self (getElem?_lt_length hget), ?_, ?_, ?_⟩
          · dsimp only
            rw [List.getElem?_map, hp, Option.map_some']
          · by_cases hc : (selected.contains p.phone_id : Bool) = true
            · rw [if_pos hc]
            · rw [if_neg hc]
          · by_cases hc : (selected.contains p.phone_id : Bool) = true
            · rw [if_pos hc]
            · rw [if_neg hc]
              exact hst
        · refine ⟨v, p, ?_, hp, rfl, hst⟩
          rw [hrec, List.getElem?_set_ne (fun he => hvi he.symm)]
          exact hv
      · intro vi pi v v' p p' hv hp hv' hp' hnb hb
        by_cases hvi : vi = vendorIndex
        · subst hvi
          have hveq : vendor = v := Option.some.inj (hget.symm.trans hv)
          subst hveq
          rw [hrec, List.getElem?_set_self (getElem?_lt_length hget)] at hv'
          obtain rfl := Option.some.inj hv'
          dsimp only at hp'
          rw [List.getElem?_map, hp, Option.map_some'] at hp'
          obtain rfl := Option.some.inj hp'
          by_cases hc : (selected.contains p.phone_id : Bool) = true
          · refine ⟨vendorId, selected, items, subtotal, tax, grandTotal, todayDate,
              nowTs, rfl, ?_⟩
            exact List.elem_iff.mp (by simpa using hc)
          · rw [if_neg hc] at hb
            exact absurd hb hnb
        · rw [hrec, List.getElem?_set_ne (fun he => hvi he.symm), hv] at hv'
          obtain rfl := Option.some.inj hv'
          rw [hp] at hp'
          obtain rfl := Option.some.inj hp'
          exact absurd hb hnb
  | billEdit records vendorId billId selected items subtotal tax grandTotal
      todayDate nowTs vendorIndex vendor hfind hget hbill =>
    obtain ⟨bIdx, bill, hbfind, hbget⟩ := exists_findIdx?_of_exists_mem hbill
    by_cases hne : selected = []
    · subst hne
      have hrec : (saveVendorBill records vendorId (some []) items subtotal tax
          grandTotal (some billId) todayDate nowTs).records = records := by
        simp only [saveVendorBill, hfind, hget, List.isEmpty_nil, if_true]
      constructor
      · intro vi pi v p hv hp hst
        refine ⟨v, p, ?_, hp, rfl, hst⟩
        rw [hrec]
        exact hv
      · intro vi pi v v' p p' hv hp hv' hp' hnb hb
        rw [hrec, hv] at hv'
        obtain rfl := Option.some.inj hv'
        rw [hp] at hp'
        obtain rfl := Option.some.inj hp'
        exact absurd hb hnb
    · have hrec := saveVendorBill_edit_eq records vendorId billId selected items
        subtotal tax grandTotal todayDate nowTs vendorIndex vendor bIdx bill
        hfind hget hne hbfind hbget
      constructor
      · intro vi pi v p hv hp hst
        by_cases hvi : vi = vendorIndex
        · subst hvi
          have hveq : vendor = v := Option.some.inj (hget.symm.trans hv)
          subst hveq
          rw [hrec]
          refine ⟨_, p, List.getElem?_set_self (getElem?_lt_length hget), ?_, rfl, hst⟩
          dsimp only
          exact hp
        · refine ⟨v, p, ?_, hp, rfl, hst⟩
          rw [hrec, List.getElem?_set_ne (fun he => hvi he.symm)]
          exact hv
      · intro vi pi v v' p p' hv hp hv' hp' hnb hb
        by_cases hvi : vi = vendorIndex
        · subst hvi
          have hveq : vendor = v := Option.some.inj (hget.symm.trans hv)
          subst hveq
          rw [hrec, List.getElem?_set_self (getElem?_lt_length hget)] at hv'
          obtain rfl := Option.some.inj hv'
          dsimp only at hp'
          rw [hp] at hp'
          obtain rfl := Option.some.inj hp'
          exact absurd hb hnb
        · rw [hrec, List.getElem?_set_ne (fun he => hvi he.symm), hv] at hv'
          obtain rfl := Option.some.inj hv'
          rw [hp] at hp'
          obtain rfl := Option.some.inj hp'
          exact absurd hb hnb

/-- C5 (witness): with a billed phone `P001` and a received phone `P002`, a
UI status change of `P002` leaves `P001` billed and in place. -/
theorem c5_witness :
    ∃ (v' : Rec) (p' : Phone),
      (updatePhoneStatus
        [{ record_type := "vendor"
           vendor_id := some "VND001"
           phones := [⟨"VND001-P001", "d", "b", "m", "i", "r", "Billed", false, true,
               some "VND001-B001"⟩,
             ⟨"VND001-P002", "d", "b", "m", "i", "r", "Received", false, false, none⟩] }]
        "VND001-P002" "In Repair")[0]? = some v' ∧
      v'.phones[0]? = some p' ∧ p'.phone_id = "VND001-P001" ∧ p'.status = "Billed" := by
  have h := (c5_theorem (Op.setStatus "VND001-P002" "In Repair")
    [{ record_type := "vendor"
       vendor_id := some "VND001"
       phones := [⟨"VND001-P001", "d", "b", "m", "i", "r", "Billed", false, true,
           some "VND001-B001"⟩,
         ⟨"VND001-P002", "d", "b", "m", "i", "r", "Received", false, false, none⟩] }]
    _
    (Step.setStatus
      [{ record_type := "vendor"
         vendor_id := some "VND001"
         phones := [⟨"VND001-P001", "d", "b", "m", "i", "r", "Billed", false, true,
             some "VND001-B001"⟩,
           ⟨"VND001-P002", "d", "b", "m", "i", "r", "Received", false, false, none⟩] }]
      "VND001-P002" "In Repair" (by decide) (by decide))).1 0 0
    { record_type := "vendor"
      vendor_id := some "VND001"
      phones := [⟨"VND001-P001", "d", "b", "m", "i", "r", "Billed", false, true,
          some "VND001-B001"⟩,
        ⟨"VND001-P002", "d", "b", "m", "i", "r", "Received", false, false, none⟩] }
    ⟨"VND001-P001", "d", "b", "m", "i", "r", "Billed", false, true, some "VND001-B001"⟩
    (by decide) (by decide) (by decide)
  exact h

/-! ## Claim C1: preservation of the billing invariant -/

theorem updateFirst_length (ps : List Phone) (pid ns : String) :
    (updateFirst ps pid ns).length = ps.length := by
  induction ps with
  | nil => rfl
  | cons p rest ih =>
    unfold updateFirst
    by_cases hpid : p.phone_id = pid
    · rw [if_pos hpid]
      rfl
    · rw [if_neg hpid]
      simpa using ih

theorem findIdx?_vendor_pred {records : List Rec} {i : ℕ} {vendor : Rec}
    {vendorId : String}
    (hfind : records.findIdx? (fun r => r.vendor_id = some vendorId) = some i)
    (hget : records[i]? = some vendor) : vendor.vendor_id = some vendorId := by
  obtain ⟨hlt, hp, -⟩ := List.findIdx?_eq_some_iff_getElem.mp hfind
  have hv : records[i] = vendor := by
    rw [List.getElem?_eq_getElem hlt] at hget
    exact Option.some.inj hget
  rw [← hv]
  exact of_decide_eq_true hp

/-- A UI status change preserves the per-record invariant. -/
theorem recInv_setStatus {r : Rec} (hinv : RecInv r) (pid ns : String)
    (hns : ns ≠ "Billed")
    (hshown : ∀ p ∈ r.phones, p.phone_id = pid → p.status ≠ "Billed") :
    RecInv { r with phones := updateFirst r.phones pid ns } := by
  obtain ⟨I1, I2, I3, I4, I5⟩ := hinv
  have hpoint : ∀ k : ℕ, ∀ p' : Phone, (updateFirst r.phones pid ns)[k]? = some p' →
      ∃ q : Phone, r.phones[k]? = some q ∧ p'.phone_id = q.phone_id ∧
        p'.billed = q.billed ∧
        (p'.status = q.status ∨ (p'.status = ns ∧ q.phone_id = pid)) := by
    intro k p' hk
    rcases updateFirst_get? r.phones pid ns k with heq | ⟨q, hq, hqid, heq⟩
    · rw [heq] at hk
      exact ⟨p', hk, rfl, rfl, Or.inl rfl⟩
    · rw [heq] at hk
      obtain rfl := Option.some.inj hk
      exact ⟨q, hq, rfl, rfl, Or.inr ⟨rfl, hqid⟩⟩
  refine ⟨?_, ?_, ?_, ?_, ?_⟩
  · intro i h
    have hlen : i < r.phones.length := by
      simpa [updateFirst_length] using h
    have hk : (updateFirst r.phones pid ns)[i]? = some ((updateFirst r.phones pid ns).get ⟨i, h⟩) := by
      rw [List.getElem?_eq_getElem h]
      rfl
    obtain ⟨q, hq, hid, -, -⟩ := hpoint i _ hk
    rw [List.getElem?_eq_getElem hlen] at hq
    obtain rfl := Option.some.inj hq
    rw [hid]
    exact I1 i hlen
  · intro p' hp'
    obtain ⟨k, hk, hkp⟩ := List.mem_iff_getElem.mp hp'
    obtain ⟨q, hq, hid, hbil, hstat⟩ := hpoint k p' (by rw [List.getElem?_eq_getElem hk, hkp])
    have hqmem : q ∈ r.phones := List.getElem?_mem hq
    rcases hstat with hsame | ⟨hns', hqpid⟩
    · rw [hbil, hsame]
      exact I2 q hqmem
    · rw [hbil, hns']
      have hqnb : q.status ≠ "Billed" := hshown q hqmem hqpid
      constructor
      · intro hqb
        exact absurd ((I2 q hqmem).mp hqb) hqnb
      · intro hnsB
        exact absurd hnsB hns
  · intro pids hpids pid' hpid'
    obtain ⟨p, hp, hpid⟩ := I3 pids hpids pid' hpid'
    obtain ⟨k, hk, hkp⟩ := List.mem_iff_getElem.mp hp
    have hk' : k < (updateFirst r.phones pid ns).length := by
      rw [updateFirst_length]
      exact hk
    obtain ⟨q, hq, hid, -, -⟩ := hpoint k _ (List.getElem?_eq_getElem hk')
    rw [List.getElem?_eq_getElem hk] at hq
    obtain hqe := Option.some.inj hq
    refine ⟨(updateFirst r.phones pid ns)[k], List.getElem_mem _, ?_⟩
    rw [hid, ← hqe, hkp]
    exact hpid
  · intro p' hp'
    obtain ⟨k, hk, hkp⟩ := List.mem_iff_getElem.mp hp'
    obtain ⟨q, hq, hid, hbil, -⟩ := hpoint k p' (by rw [List.getElem?_eq_getElem hk, hkp])
    have hqmem : q ∈ r.phones := List.getElem?_mem hq
    rw [hbil, hid]
    exact I4 q hqmem
  · exact I5

/-- Adding a phone preserves the per-record invariant. -/
theorem recInv_addPhone {r : Rec} (hinv : RecInv r) {vid : String}
    (hvid : r.vendor_id = some vid) (form : PhoneForm) :
    RecInv { r with phones := r.phones ++
      [⟨generatePhoneID vid (r.phones.length + 1), form.date_received,
        form.brand, form.model, form.issue, form.received_by,
        "Received", false, false, none⟩] } := by
  obtain ⟨I1, I2, I3, I4, I5⟩ := hinv
  have hvd : r.vendor_id.getD "" = vid := by rw [hvid]; rfl
  have hfresh : ∀ pids ∈ billsPids r.bills,
      generatePhoneID vid (r.phones.length + 1) ∉ pids := by
    intro pids hpids hmem
    obtain ⟨p, hp, hpid⟩ := I3 pids hpids _ hmem
    obtain ⟨j, hj, hjp⟩ := List.mem_iff_getElem.mp hp
    have hje := I1 j hj
    rw [hvd] at hje
    have hg : r.phones.get ⟨j, hj⟩ = p := by
      rw [List.get_eq_getElem]
      exact hjp
    rw [hg] at hje
    have heq := generatePhoneID_inj vid (hje.symm.trans hpid)
    omega
  refine ⟨?_, ?_, ?_, ?_, ?_⟩
  · intro i h
    dsimp only at h ⊢
    have hlen : i < r.phones.length + 1 := by simpa using h
    rcases Nat.lt_or_ge i r.phones.length with hi | hi
    · have hg : (r.phones ++ [(⟨generatePhoneID vid (r.phones.length + 1),
          form.date_received, form.brand, form.model, form.issue, form.received_by,
          "Received", false, false, none⟩ : Phone)]).get ⟨i, h⟩ = r.phones[i] := by
        rw [List.get_eq_getElem]
        exact List.getElem_append_left hi
      rw [hg]
      have hie := I1 i hi
      rw [List.get_eq_getElem] at hie
      rw [hie]
    · have hieq : i = r.phones.length := by omega
      subst hieq
      have hg : (r.phones ++ [(⟨generatePhoneID vid (r.phones.length + 1),
          form.date_received, form.brand, form.model, form.issue, form.received_by,
          "Received", false, false, none⟩ : Phone)]).get ⟨r.phones.length, h⟩ =
          ⟨generatePhoneID vid (r.phones.length + 1), form.date_received,
            form.brand, form.model, form.issue, form.received_by,
            "Received", false, false, none⟩ := by
        rw [List.get_eq_getElem]
        exact List.getElem_concat_length _ _ _ rfl _
      rw [hg, hvd]
  · intro p hp
    dsimp only at hp
    rcases List.mem_append.mp hp with hold | hnew
    · exact I2 p hold
    · rw [List.mem_singleton.mp hnew]
      constructor
      · intro hb
        simp at hb
      · intro hs
        simp at hs
  · intro pids hpids pid' hpid'
    obtain ⟨p, hp, hpid⟩ := I3 pids hpids pid' hpid'
    exact ⟨p, List.mem_append_left _ hp, hpid⟩
  · intro p hp
    dsimp only at hp
    rcases List.mem_append.mp hp with hold | hnew
    · exact I4 p hold
    · rw [List.mem_singleton.mp hnew]
      have hcount : billCount r.bills (generatePhoneID vid (r.phones.length + 1)) = 0 := by
        unfold billCount
        apply List.countP_eq_zero.mpr
        intro pids hpids hcontains
        exact hfresh pids hpids (List.elem_iff.mp (by simpa using hcontains))
      constructor
      · intro hb
        simp at hb
      · intro h1
        dsimp only at h1
        rw [hcount] at h1
        exact absurd h1 (by decide)
  · exact I5

/-- Creating a bill for a non-`Billed` selection preserves the per-record
invariant: the new bill's phone set is disjoint from every older bill and
every selected phone becomes billed under exactly this bill. -/
theorem recInv_billCreate {r : Rec} (hinv : RecInv r) (vendorId : String)
    (selected : List String) (items : List LineItem) (subtotal tax grandTotal : ℚ)
    (todayDate nowTs : String)
    (hsel : ∀ pid ∈ selected, ∃ p ∈ r.phones, p.phone_id = pid ∧
      selectablePhone p = true) :
    RecInv { r with
      bills := r.bills ++
        [⟨generateBillID vendorId (r.bills.length + 1),
          generateBillID vendorId (r.bills.length + 1), todayDate, selected,
          items, subtotal, tax, grandTotal, nowTs, none⟩]
      phones := r.phones.map (fun p =>
        if selected.contains p.phone_id then
          { p with
            billed := true
            bill_id := some (generateBillID vendorId (r.bills.length + 1))
            status := "Billed" }
        else p) } := by
  obtain ⟨I1, I2, I3, I4, I5⟩ := hinv
  have hzero : ∀ pid ∈ selected, billCount r.bills pid = 0 := by
    intro pid hpid
    obtain ⟨p, hp, hpe, hselp⟩ := hsel pid hpid
    subst hpe
    exact billCount_eq_zero_of_unbilled (I4 p hp) I5
      (selectable_billed_false (I2 p hp) hselp)
  have hidf : ∀ q : Phone,
      (if (selected.contains q.phone_id : Bool) = true then
        ({ q with
          billed := true
          bill_id := some (generateBillID vendorId (r.bills.length + 1))
          status := "Billed" } : Phone)
      else q).phone_id = q.phone_id := by
    intro q
    by_cases hc : (selected.contains q.phone_id : Bool) = true
    · rw [if_pos hc]
    · rw [if_neg hc]
  have happend : billsPids (r.bills ++
      [(⟨generateBillID vendorId (r.bills.length + 1),
        generateBillID vendorId (r.bills.length + 1), todayDate, selected,
        items, subtotal, tax, grandTotal, nowTs, none⟩ : VendorBill)]) =
      billsPids r.bills ++ [selected] := by
    unfold billsPids
    rw [List.map_append]
    rfl
  refine ⟨?_, ?_, ?_, ?_, ?_⟩
  · intro i h
    dsimp only at h ⊢
    have hi : i < r.phones.length := by simpa using h
    rw [List.get_eq_getElem]
    rw [List.getElem_map]
    rw [hidf]
    have hie := I1 i hi
    rw [List.get_eq_getElem] at hie
    exact hie
  · intro p' hp'
    dsimp only at hp'
    obtain ⟨q, hq, rfl⟩ := List.mem_map.mp hp'
    by_cases hc : (selected.contains q.phone_id : Bool) = true
    · rw [if_pos hc]
      constructor
      · intro _
        rfl
      · intro _
        rfl
    · rw [if_neg hc]
      exact I2 q hq
  · intro pids hpids pid' hpid'
    dsimp only at hpids
    rw [happend] at hpids
    rcases List.mem_append.mp hpids with hold | hnew
    · obtain ⟨p, hp, hpe⟩ := I3 pids hold pid' hpid'
      refine ⟨_, List.mem_map_of_mem _ hp, ?_⟩
      rw [hidf, hpe]
    · rw [List.mem_singleton.mp hnew] at hpid'
      obtain ⟨p, hp, hpe, -⟩ := hsel pid' hpid'
      refine ⟨_, List.mem_map_of_mem _ hp, ?_⟩
      rw [hidf, hpe]
  · intro p' hp'
    dsimp only at hp' ⊢
    obtain ⟨q, hq, rfl⟩ := List.mem_map.mp hp'
    unfold billCount
    rw [happend, List.countP_append]
    by_cases hc : (selected.contains q.phone_id : Bool) = true
    · rw [if_pos hc]
      have hmem : q.phone_id ∈ selected := List.elem_iff.mp (by simpa using hc)
      have hqz := hzero q.phone_id hmem
      unfold billCount at hqz
      dsimp only
      rw [hqz]
      constructor
      · intro _
        simp [List.countP_cons, hmem]
      · intro _
        rfl
    · rw [if_neg hc]
      have hmem : q.phone_id ∉ selected := fun hm => hc (by simpa using List.elem_iff.mpr hm)
      have hsing : List.countP (fun pids => pids.contains q.phone_id) [selected] = 0 := by
        simp [List.countP_cons, hmem]
      rw [hsing, Nat.add_zero]
      exact I4 q hq
  · dsimp only
    rw [happend]
    rw [List.pairwise_append]
    refine ⟨I5, List.pairwise_singleton _ _, ?_⟩
    intro l1 hl1 l2 hl2 pid hpid1 hpid2
    rw [List.mem_singleton.mp hl2] at hpid2
    have h0 := hzero pid hpid2
    have hpos : 0 < billCount r.bills pid := by
      unfold billCount
      rw [List.countP_pos_iff]
      exact ⟨l1, hl1, by simpa using List.elem_iff.mpr hpid1⟩
    omega

/-- Editing a bill's items and totals in place preserves the per-record
invariant: the phone-id sets of the bills are unchanged. -/
theorem recInv_billEdit {r : Rec} (hinv : RecInv r) {bIdx : ℕ} {bill : VendorBill}
    (hbget : r.bills[bIdx]? = some bill)
    (items : List LineItem) (subtotal tax grandTotal : ℚ) (nowTs : String) :
    RecInv { r with bills := r.bills.set bIdx
                      { bill with
                        items := items
                        subtotal := subtotal
                        tax := tax
                        grand_total := grandTotal
                        updated_at := some nowTs } } := by
  have hpids : billsPids (r.bills.set bIdx
      { bill with
        items := items
        subtotal := subtotal
        tax := tax
        grand_total := grandTotal
        updated_at := some nowTs }) = billsPids r.bills := by
    unfold billsPids
    rw [List.map_set]
    apply set_of_getElem?_eq
    rw [List.getElem?_map, hbget]
    rfl
  obtain ⟨I1, I2, I3, I4, I5⟩ := hinv
  refine ⟨I1, I2, ?_, ?_, ?_⟩
  · intro pids hpids' pid' hpid'
    dsimp only at hpids'
    rw [hpids] at hpids'
    exact I3 pids hpids' pid' hpid'
  · intro p hp
    dsimp only at hp ⊢
    unfold billCount
    rw [hpids]
    exact I4 p hp
  · dsimp only
    rw [hpids]
    exact I5

/-- Every UI-triggered step preserves the store-wide invariant. -/
theorem inv_preserved {op : Op} {records records' : List Rec}
    (hstep : Step op records records') (hinv : Inv records) : Inv records' := by
  cases hstep with
  | newVendor records =>
    intro r hr
    rw [createVendorSubmit] at hr
    rcases List.mem_append.mp hr with hold | hnew
    · exact hinv r hold
    · rw [List.mem_singleton.mp hnew]
      refine ⟨?_, ?_, ?_, ?_, ?_⟩
      · intro i h
        simp at h
      · intro p hp
        simp at hp
      · intro pids hpids
        simp [billsPids] at hpids
      · intro p hp
        simp at hp
      · exact List.Pairwise.nil
  | newPhone records records' vendorId form h =>
    obtain ⟨i, vendor, hfind, hget, hvid, rfl⟩ := addPhoneSubmit_eq h
    intro r hr
    rcases List.mem_or_eq_of_mem_set hr with hold | hnew
    · exact hinv r hold
    · rw [hnew]
      exact recInv_addPhone (hinv vendor (List.getElem?_mem hget)) hvid form
  | setStatus records phoneId newStatus hopt hshown =>
    have hns : newStatus ≠ "Billed" := by
      simp only [phoneStatusOptions, List.mem_cons, List.not_mem_nil, or_false] at hopt
      rcases hopt with rfl | rfl | rfl <;> decide
    intro r' hr'
    obtain ⟨j, hj, hjr⟩ := List.mem_iff_getElem.mp hr'
    rcases updatePhoneStatus_get? records phoneId newStatus j with heq |
      ⟨r, hrj, hrt, heq⟩
    · have hmem : records[j]? = some r' := by
        rw [← heq, List.getElem?_eq_getElem hj, hjr]
      exact hinv r' (List.getElem?_mem hmem)
    · have hr'eq : r' = { r with phones := updateFirst r.phones phoneId newStatus } := by
        have h1 : (updatePhoneStatus records phoneId newStatus)[j]? = some r' := by
          rw [List.getElem?_eq_getElem hj, hjr]
        rw [heq] at h1
        exact (Option.some.inj h1).symm
      rw [hr'eq]
      apply recInv_setStatus (hinv r (List.getElem?_mem hrj)) phoneId newStatus hns
      intro p hp hpid
      have hsh := hshown r (List.getElem?_mem hrj) hrt p hp hpid
      unfold statusSelectShown at hsh
      exact of_decide_eq_true hsh
  | billCreate records vendorId selected items subtotal tax grandTotal todayDate
      nowTs vendorIndex vendor hfind hget hsel =>
    have hrec := saveVendorBill_create_eq records vendorId selected items subtotal
      tax grandTotal todayDate nowTs vendorIndex vendor hfind hget
    by_cases hemp : selected.isEmpty = true
    · rw [if_pos hemp] at hrec
      rw [hrec]
      exact hinv
    · rw [if_neg hemp] at hrec
      rw [hrec]
      intro r' hr'
      rcases List.mem_or_eq_of_mem_set hr' with hold | hnew
      · exact hinv r' hold
      · rw [hnew]
        exact recInv_billCreate (hinv vendor (List.getElem?_mem hget)) vendorId
          selected items subtotal tax grandTotal todayDate nowTs hsel
  | billEdit records vendorId billId selected items subtotal tax grandTotal
      todayDate nowTs vendorIndex vendor hfind hget hbill =>
    obtain ⟨bIdx, bill, hbfind, hbget⟩ := exists_findIdx?_of_exists_mem hbill
    by_cases hne : selected = []
    · subst hne
      have hrec : (saveVendorBill records vendorId (some []) items subtotal tax
          grandTotal (some billId) todayDate nowTs).records = records := by
        simp only [saveVendorBill, hfind, hget, List.isEmpty_nil, if_true]
      rw [hrec]
      exact hinv
    · rw [saveVendorBill_edit_eq records vendorId billId selected items subtotal
        tax grandTotal todayDate nowTs vendorIndex vendor bIdx bill hfind hget hne
        hbfind hbget]
      intro r' hr'
      rcases List.mem_or_eq_of_mem_set hr' with hold | hnew
      · exact hinv r' hold
      · rw [hnew]
        exact recInv_billEdit (hinv vendor (List.getElem?_mem hget)) hbget items
          subtotal tax grandTotal nowTs

/-- Stores reachable from the empty snapshot satisfy the invariant. -/
theorem reachable_inv {records : List Rec} (h : Reachable records) : Inv records := by
  induction h with
  | init =>
    intro r hr
    cases hr
  | step hr hstep ih => exact inv_preserved hstep ih

/-- C1 (confirmed): in every store reachable from the empty snapshot by
UI-triggered mutations, each vendor record's bills have pairwise-disjoint
phone-id sets (no phone id in two bills), and a phone's `billed` flag is
true iff the phone's id appears in exactly one of that vendor's bills. -/
theorem c1_theorem (records : List Rec) (hreach : Reachable records) :
    ∀ r ∈ records,
      (billsPids r.bills).Pairwise (fun l1 l2 => ∀ pid ∈ l1, pid ∉ l2) ∧
      ∀ p ∈ r.phones, (p.billed = true ↔ billCount r.bills p.phone_id = 1) := by
  intro r hr
  obtain ⟨-, -, -, I4, I5⟩ := reachable_inv hreach r hr
  exact ⟨I5, I4⟩

/-- C1 (witness): the invariant evaluated on the store reached by creating
a vendor, adding a phone and billing it. -/
theorem c1_witness :
    (billsPids [(⟨"VND001-B001", "VND001-B001", "d", ["VND001-P001"], [], 0, 0, 0,
        "t", none⟩ : VendorBill)]).Pairwise (fun l1 l2 => ∀ pid ∈ l1, pid ∉ l2) ∧
    ∀ p ∈ [(⟨"VND001-P001", "d", "b", "m", "i", "r", "Billed", false, true,
        some "VND001-B001"⟩ : Phone)],
      (p.billed = true ↔
        billCount [(⟨"VND001-B001", "VND001-B001", "d", ["VND001-P001"], [], 0, 0, 0,
          "t", none⟩ : VendorBill)] p.phone_id = 1) := by
  have hreach : Reachable ((saveVendorBill
      [{ record_type := "vendor"
         vendor_id := some "VND001"
         phones := [⟨"VND001-P001", "d", "b", "m", "i", "r", "Received", false, false, none⟩] }]
      "VND001" (some ["VND001-P001"]) [] 0 0 0 none "d" "t").records) := by
    have h1 : Reachable (createVendorSubmit []) :=
      Reachable.step Reachable.init (Step.newVendor [])
    have h2 : Reachable
        [{ record_type := "vendor"
           vendor_id := some "VND001"
           phones := [⟨"VND001-P001", "d", "b", "m", "i", "r", "Received", false, false, none⟩] }] :=
      Reachable.step h1 (Step.newPhone (createVendorSubmit [])
        [{ record_type := "vendor"
           vendor_id := some "VND001"
           phones := [⟨"VND001-P001", "d", "b", "m", "i", "r", "Received", false, false, none⟩] }]
        "VND001" ⟨"d", "b", "m", "i", "r"⟩ (by decide))
    exact Reachable.step h2 (Step.billCreate
      [{ record_type := "vendor"
         vendor_id := some "VND001"
         phones := [⟨"VND001-P001", "d", "b", "m", "i", "r", "Received", false, false, none⟩] }]
      "VND001" ["VND001-P001"] [] 0 0 0 "d" "t" 0
      { record_type := "vendor"
        vendor_id := some "VND001"
        phones := [⟨"VND001-P001", "d", "b", "m", "i", "r", "Received", false, false, none⟩] }
      (by decide) (by decide) (by decide))
  have h := c1_theorem _ hreach
    { record_type := "vendor"
      vendor_id := some "VND001"
      phones := [⟨"VND001-P001", "d", "b", "m", "i", "r", "Billed", false, true,
        some "VND001-B001"⟩]
      bills := [⟨"VND001-B001", "VND001-B001", "d", ["VND001-P001"], [], 0, 0, 0,
        "t", none⟩] }
    (by decide)
  exact h

end Malyan
